import Mathlib

/-!
Verification of the mnemoCast display client core against its specification.

The Go sources are embedded shallowly: pure functions become Lean functions,
stateful code becomes explicit state passing, machine integers are modelled as
Int with explicit two-complement wrapping where overflow matters, fallible
code returns Except or Option.  Concurrency primitives (mutexes, goroutines,
contexts) are not part of the embedding; loops are modelled as step functions
over explicit event lists.
-/

namespace MnemoCast

/-! ## Go-level helpers -/

/-- One second expressed in the unit of Go time.Duration (nanoseconds). -/
def second : Int := 1000000000

/-- Reinterpret an integer as a signed 64-bit value, the wrap-around of Go
int64 arithmetic (two-complement). -/
def int64Wrap (x : Int) : Int := (x + 2 ^ 63) % 2 ^ 64 - 2 ^ 63

/-- Strict lexicographic order on character lists, comparing scalar values.
This models the Go operator < on strings: Go compares byte-wise over UTF-8,
and UTF-8 byte order coincides with scalar-value order on valid strings. -/
def strLtAux : List Char → List Char → Bool
  | [], [] => false
  | [], _ :: _ => true
  | _ :: _, [] => false
  | a :: as, b :: bs =>
    if a.toNat < b.toNat then true
    else if b.toNat < a.toNat then false
    else strLtAux as bs

/-- The Go string comparison a < b. -/
def goStringLt (a b : String) : Bool := strLtAux a.data b.data

theorem strLtAux_irrefl : ∀ l : List Char, strLtAux l l = false := by
  intro l
  induction l with
  | nil => rfl
  | cons a as ih => simp [strLtAux, ih]

theorem strLtAux_asymm :
    ∀ {a b : List Char}, strLtAux a b = true → strLtAux b a = false := by
  intro a
  induction a with
  | nil => intro b h; cases b <;> simp_all [strLtAux]
  | cons x xs ih =>
    intro b h
    cases b with
    | nil => simp [strLtAux] at h
    | cons y ys =>
      simp only [strLtAux] at h ⊢
      by_cases h1 : x.toNat < y.toNat
      · have : ¬ y.toNat < x.toNat := by omega
        simp [h1, this]
      · by_cases h2 : y.toNat < x.toNat
        · simp [h1, h2] at h
        · simp only [h1, h2, if_false] at h ⊢
          exact ih h

theorem strLtAux_not_lt_trans :
    ∀ {a b c : List Char}, strLtAux b a = false → strLtAux c b = false →
      strLtAux c a = false := by
  intro a
  induction a with
  | nil =>
    intro b c hba hcb
    cases c with
    | nil => rfl
    | cons z zs => rfl
  | cons x xs ih =>
    intro b c hba hcb
    cases b with
    | nil => simp [strLtAux] at hba
    | cons y ys =>
      cases c with
      | nil => simp [strLtAux] at hcb
      | cons z zs =>
        simp only [strLtAux] at hba hcb ⊢
        by_cases hyx : y.toNat < x.toNat
        · rw [if_pos hyx] at hba; exact absurd hba (by simp)
        · by_cases hzy : z.toNat < y.toNat
          · rw [if_pos hzy] at hcb; exact absurd hcb (by simp)
          · by_cases hxy : x.toNat < y.toNat
            · have h1 : ¬ z.toNat < x.toNat := by omega
              have h2 : x.toNat < z.toNat := by omega
              rw [if_neg h1, if_pos h2]
            · by_cases hyz : y.toNat < z.toNat
              · have h1 : ¬ z.toNat < x.toNat := by omega
                have h2 : x.toNat < z.toNat := by omega
                rw [if_neg h1, if_pos h2]
              · have h1 : ¬ z.toNat < x.toNat := by omega
                have h2 : ¬ x.toNat < z.toNat := by omega
                rw [if_neg hyx, if_neg hxy] at hba
                rw [if_neg hzy, if_neg hyz] at hcb
                rw [if_neg h1, if_neg h2]
                exact ih hba hcb

/-! ## internal/models (ad.go)

The metadata field (an opaque key/value bag of type map over interface) is
omitted: no operation modelled here reads it. -/

/-- One advertisement, from models.Ad.  Absent startTime/endTime (the Go
zero time.Time, IsZero) are modelled as none; instants are integers. -/
structure Ad where
  id : String
  title : String := ""
  type : String := ""
  contentURL : String := ""
  duration : Int := 0
  startTime : Option Int := none
  endTime : Option Int := none
  priority : Int := 0
  deriving Repr, DecidableEq

/-- The ad-delivery response, from models.AdDeliveryResponse. -/
structure AdDeliveryResponse where
  ads : List Ad
  playlistID : String := ""
  updatedAt : Int := 0
  deriving Repr, DecidableEq

/-! ## internal/player playlist (Playlist struct) -/

/-- The playlist state: ad list, round-robin cursor, last-update stamp. -/
structure Playlist where
  ads : List Ad
  currentIdx : Nat
  lastUpdate : Int
  deriving Repr, DecidableEq

/-- NewPlaylist. -/
def newPlaylist : Playlist := { ads := [], currentIdx := 0, lastUpdate := 0 }

/-- Playlist.UpdateAds: replace the ad list, stamp the update time, and reset
the cursor when it is out of bounds for the new list. -/
def Playlist.updateAds (p : Playlist) (resp : AdDeliveryResponse) (now : Int) :
    Playlist :=
  let ads := resp.ads
  { ads := ads
    currentIdx := if p.currentIdx ≥ ads.length then 0 else p.currentIdx
    lastUpdate := now }

/-- The per-ad admission test of Playlist.FilterByTime: an ad with no time
constraints is always active; otherwise the current instant must be at or
after the start (when present) and at or before the end (when present). -/
def adTimeOK (now : Int) (ad : Ad) : Bool :=
  if ad.startTime.isNone && ad.endTime.isNone then true
  else
    let startOK :=
      match ad.startTime with
      | none => true
      | some s => decide (s ≤ now)
    let endOK :=
      match ad.endTime with
      | none => true
      | some e => decide (now ≤ e)
    startOK && endOK

/-- Playlist.FilterByTime on an ad list. -/
def filterAdsByTime (ads : List Ad) (now : Int) : List Ad :=
  ads.filter (adTimeOK now)

/-- Playlist.FilterByTime. -/
def Playlist.filterByTime (p : Playlist) (now : Int) : List Ad :=
  filterAdsByTime p.ads now

/-- The less function passed to sort.Slice in Playlist.SortByPriority:
higher priority first, ties broken by ascending id. -/
def adBefore (x y : Ad) : Prop :=
  (if x.priority ≠ y.priority then decide (x.priority > y.priority)
   else goStringLt x.id y.id) = true

instance : DecidableRel adBefore := fun x y => by
  unfold adBefore; infer_instance

/-- The non-strict order induced by the sort.Slice comparator: x may come
before y exactly when the comparator does not demand y before x. -/
def adLE (x y : Ad) : Prop := ¬ adBefore y x

instance : DecidableRel adLE := fun x y => by
  unfold adLE; infer_instance

instance : IsTotal Ad adLE where
  total := by
    intro x y
    unfold adLE adBefore
    by_cases hp : x.priority = y.priority
    · simp only [hp]
      rcases h : goStringLt y.id x.id with _ | _
      · left; simp [h, hp]
      · right
        have := strLtAux_asymm (a := y.id.data) (b := x.id.data) h
        simp [goStringLt] at h ⊢
        simp [hp, this]
    · by_cases hgt : x.priority > y.priority
      · left
        have : ¬ y.priority > x.priority := by omega
        simp [Ne.symm hp, this]
      · right
        have : ¬ x.priority > y.priority := by omega
        simp [hp, this]

instance : IsTrans Ad adLE where
  trans := by
    intro x y z hxy hyz
    unfold adLE adBefore at hxy hyz ⊢
    by_cases h1 : y.priority = x.priority
    · by_cases h2 : z.priority = y.priority
      · have h3 : z.priority = x.priority := by omega
        simp only [h1, h2, h3, ne_eq, not_true_eq_false, if_neg, if_false,
          not_false_eq_true, ite_self] at hxy hyz ⊢
        simp only [goStringLt] at hxy hyz ⊢
        simp only [Bool.not_eq_true] at hxy hyz ⊢
        simp only [if_neg (by simp : ¬ (True = False))] at *
        exact strLtAux_not_lt_trans hxy hyz
      · -- z has a different priority from y = x
        have hzx : z.priority ≠ x.priority := by omega
        simp only [h2, ne_eq, not_false_iff, if_pos, decide_eq_true_eq] at hyz
        have hzy : ¬ z.priority > y.priority := by
          intro h; exact hyz (by simpa using h)
        have : ¬ z.priority > x.priority := by omega
        simp [hzx, this]
    · by_cases h2 : z.priority = y.priority
      · have hzx : z.priority ≠ x.priority := by omega
        simp only [ne_eq, h1, not_false_iff, if_pos, decide_eq_true_eq] at hxy
        have hyx : ¬ y.priority > x.priority := by
          intro h; exact hxy (by simpa using h)
        have : ¬ z.priority > x.priority := by omega
        simp [hzx, this]
      · simp only [ne_eq, h1, h2, not_false_iff, if_pos, decide_eq_true_eq] at hxy hyz
        have hyx : ¬ y.priority > x.priority := by
          intro h; exact hxy (by simpa using h)
        have hzy : ¬ z.priority > y.priority := by
          intro h; exact hyz (by simpa using h)
        by_cases hzx : z.priority = x.priority
        · simp only [ne_eq, hzx, not_true_eq_false, if_neg, if_false,
            not_false_eq_true]
          omega
        · have : ¬ z.priority > x.priority := by omega
          simp [hzx, this]

/-- Playlist.SortByPriority: sort.Slice with the comparator above.  The Go
sort is an unspecified comparison sort; it is modelled by insertion sort,
which produces a permutation ordered by the same comparator. -/
def sortByPriority (ads : List Ad) : List Ad :=
  ads.insertionSort adLE

/-- The body of Playlist.GetNextAd with the mutex operations erased: filter
by time at the current instant; when nothing is active return none;
otherwise sort by priority, return the element at cursor mod length and
advance the cursor.  This is NOT a faithful embedding of the method as a
whole: the source write-locks p.mu and then calls FilterByTime, which
read-locks the same non-reentrant sync.RWMutex, so the real call blocks
forever and never reaches this body (see getNextAdMu below, the lock-aware
embedding).  The lock-erased body is kept because the Player reachability
model uses it: erasing a step that in reality never completes only enlarges
the set of states the Player invariants are proved over, so safety results
proved with it remain true of the code. -/
def Playlist.getNextAd (p : Playlist) (now : Int) : Option Ad × Playlist :=
  let activeAds := p.filterByTime now
  if activeAds.length = 0 then (none, p)
  else
    let sortedAds := sortByPriority activeAds
    if sortedAds.length > 0 then
      (sortedAds[p.currentIdx % sortedAds.length]?,
       { p with currentIdx := p.currentIdx + 1 })
    else (none, p)

/-- The playlist state after k successive GetNextAd calls at a fixed
instant. -/
def Playlist.callsFrom (p : Playlist) (now : Int) : Nat → Playlist
  | 0 => p
  | k + 1 => ((p.callsFrom now k).getNextAd now).2

/-- The state of a Go sync.RWMutex as observed by one goroutine: free, held
by some number of readers, or held by a writer. -/
inductive MuState where
  | unlocked
  | rlocked (readers : Nat)
  | wlocked
  deriving Repr, DecidableEq

/-- Go mu.Lock: acquires the write lock when the mutex is free; from any
other state the call blocks, and since the mutex is not reentrant a
goroutine that already holds the lock blocks forever (none). -/
def muLock : MuState → Option MuState
  | .unlocked => some .wlocked
  | _ => none

/-- Go mu.RLock: acquires a read lock unless a writer holds the mutex, in
which case the call blocks (none); with the writer being the caller itself
the block is forever. -/
def muRLock : MuState → Option MuState
  | .unlocked => some (.rlocked 1)
  | .rlocked n => some (.rlocked (n + 1))
  | .wlocked => none

/-- Go mu.RUnlock. -/
def muRUnlock : MuState → MuState
  | .rlocked 1 => .unlocked
  | .rlocked (n + 2) => .rlocked (n + 1)
  | s => s

/-- Go mu.Unlock. -/
def muUnlock : MuState → MuState
  | .wlocked => .unlocked
  | s => s

/-- Playlist.FilterByTime with its RLock and deferred RUnlock made explicit:
the body runs only after the read lock is acquired; a blocked RLock means
the call never returns (none). -/
def Playlist.filterByTimeMu (p : Playlist) (mu : MuState) (now : Int) :
    Option (List Ad × MuState) :=
  match muRLock mu with
  | none => none
  | some held => some (filterAdsByTime p.ads now, muRUnlock held)

/-- Playlist.GetNextAd with the mutex operations of the source made
explicit, the call starting with the mutex free: p.mu.Lock with deferred
Unlock, then p.FilterByTime (which RLocks the same mutex), then the
emptiness check, the sort and the cursor step, with the deferred Unlock run
on every return path.  A blocked lock operation is none: the call never
returns. -/
def Playlist.getNextAdMu (p : Playlist) (now : Int) :
    Option (Option Ad × Playlist × MuState) :=
  match muLock MuState.unlocked with
  | none => none
  | some held =>
    match p.filterByTimeMu held now with
    | none => none
    | some (activeAds, mu2) =>
      if activeAds.length = 0 then some (none, p, muUnlock mu2)
      else
        let sortedAds := sortByPriority activeAds
        if sortedAds.length > 0 then
          some (sortedAds[p.currentIdx % sortedAds.length]?,
                { p with currentIdx := p.currentIdx + 1 }, muUnlock mu2)
        else some (none, p, muUnlock mu2)

/-! ## internal/player/scheduler.go -/

/-- The playback scheduler constants; all durations in nanoseconds, as Go
time.Duration. -/
structure Scheduler where
  defaultDuration : Int
  transitionDelay : Int
  minDuration : Int
  maxDuration : Int
  deriving Repr, DecidableEq

/-- NewScheduler: seconds are converted to Duration by multiplication with
time.Second in int64 arithmetic; min is 5 s and max is 300 s. -/
def newScheduler (defaultDurationSeconds transitionDelaySeconds : Int) :
    Scheduler :=
  { defaultDuration := int64Wrap (defaultDurationSeconds * second)
    transitionDelay := int64Wrap (transitionDelaySeconds * second)
    minDuration := 5 * second
    maxDuration := 300 * second }

/-- Scheduler.GetAdDuration: the ad duration (converted to nanoseconds with
int64 wrap-around) when positive, else the default; then the minimum bound is
applied, then the maximum bound. -/
def Scheduler.getAdDuration (s : Scheduler) (ad : Ad) : Int :=
  let duration :=
    if ad.duration > 0 then int64Wrap (ad.duration * second)
    else s.defaultDuration
  let duration := if duration < s.minDuration then s.minDuration else duration
  if duration > s.maxDuration then s.maxDuration else duration

/-- Scheduler.GetTransitionDelay. -/
def Scheduler.getTransitionDelay (s : Scheduler) : Int := s.transitionDelay

/-- Scheduler.ShouldTransition: elapsed time at or beyond the ad duration. -/
def Scheduler.shouldTransition (s : Scheduler) (ad : Ad) (startTime now : Int) :
    Bool :=
  decide (now - startTime ≥ s.getAdDuration ad)

/-- The duration assignment exactly as the specification words it, with no
machine arithmetic: ad.duration seconds if positive else the default, then
clamped into the closed interval from minDuration to maxDuration.  Used only
to compare the specification against Scheduler.getAdDuration. -/
def specDurationFor (s : Scheduler) (ad : Ad) : Int :=
  let d := if ad.duration > 0 then ad.duration * second else s.defaultDuration
  let d := if d < s.minDuration then s.minDuration else d
  if d > s.maxDuration then s.maxDuration else d

/-! ## internal/client (Client struct) -/

deriving instance DecidableEq for Except

/-- One transport-layer attempt as seen by Client.doRequest: either the HTTP
round trip fails before a response exists, or a response with a status code
arrives. -/
inductive AttemptOutcome where
  | failure (e : String)
  | response (status : Nat)
  deriving Repr, DecidableEq

/-- What a doRequest run did: the final outcome, the sleeps performed (in
nanoseconds, in order), and how many HTTP attempts were made. -/
structure RequestTrace where
  result : Except String Nat
  sleeps : List Int
  attempts : Nat
  deriving Repr, DecidableEq

/-- The loop body of Client.doRequest: for attempt = 0 .. maxRetries, sleep
retryDelay times the attempt number when the attempt is a retry, then perform
the round trip; any received response is returned at once, whatever its
status; only transport failures continue the loop.  The remaining argument
counts the attempts still permitted (maxRetries + 1 - attempt). -/
def doRequestLoop (results : Nat → AttemptOutcome) (maxRetries : Nat)
    (retryDelay : Int) :
    (remaining attempt : Nat) → (lastErr : String) → (sleeps : List Int) →
    (tries : Nat) → RequestTrace
  | 0, _, lastErr, sleeps, tries =>
    { result := .error ("request failed after " ++ toString (maxRetries + 1) ++
        " attempts: " ++ lastErr)
      sleeps := sleeps
      attempts := tries }
  | remaining + 1, attempt, lastErr, sleeps, tries =>
    let sleeps2 := if attempt > 0 then sleeps ++ [retryDelay * (attempt : Int)]
      else sleeps
    match results attempt with
    | .response st =>
      { result := .ok st, sleeps := sleeps2, attempts := tries + 1 }
    | .failure e =>
      doRequestLoop results maxRetries retryDelay remaining (attempt + 1) e
        sleeps2 (tries + 1)

/-- Client.doRequest. -/
def Client.doRequest (results : Nat → AttemptOutcome) (maxRetries : Nat)
    (retryDelay : Int) : RequestTrace :=
  doRequestLoop results maxRetries retryDelay (maxRetries + 1) 0 "" [] 0

/-- Classification of a Client.Connect result; body parsing is elided (the
claims concern the retry and status policy). -/
inductive ConnectOutcome where
  | connected
  | authInvalid
  | screenUnknown
  | serverError (status : Nat)
  | transportFailure (e : String)
  deriving Repr, DecidableEq

/-- Client.Connect: the request runs through doRequest with the literal
arguments 3 and 2 seconds; a 401 is authentication failure, a 404 unknown
screen, any other non-200 a server error, all decided on the first response
with no further attempts. -/
def Client.connect (results : Nat → AttemptOutcome) :
    ConnectOutcome × RequestTrace :=
  let t := Client.doRequest results 3 (2 * second)
  match t.result with
  | .error e => (.transportFailure e, t)
  | .ok st =>
    if st = 401 then (.authInvalid, t)
    else if st = 404 then (.screenUnknown, t)
    else if st ≠ 200 then (.serverError st, t)
    else (.connected, t)

/-- Classification of a Client.Heartbeat result. -/
inductive HeartbeatOutcome where
  | ok (status : Nat)
  | failed (status : Nat)
  | transportFailure (e : String)
  deriving Repr, DecidableEq

/-- Client.Heartbeat: doRequest with the literal arguments 3 and 2 seconds;
any status other than 200 or 204 fails on the first response. -/
def Client.heartbeat (results : Nat → AttemptOutcome) :
    HeartbeatOutcome × RequestTrace :=
  let t := Client.doRequest results 3 (2 * second)
  match t.result with
  | .error e => (.transportFailure e, t)
  | .ok st =>
    if st ≠ 200 ∧ st ≠ 204 then (.failed st, t) else (.ok st, t)

/-- Classification of a Client.GetAds result. -/
inductive GetAdsOutcome where
  | ok
  | noContent (resp : AdDeliveryResponse)
  | failed (status : Nat)
  | transportFailure (e : String)
  deriving Repr, DecidableEq

/-- Client.GetAds: doRequest with the literal arguments 3 and 2 seconds; a 204
synthesizes an empty manifest stamped now; any other non-200 fails on the
first response; a 200 parses the manifest (body parsing elided). -/
def Client.getAds (results : Nat → AttemptOutcome) (now : Int) :
    GetAdsOutcome × RequestTrace :=
  let t := Client.doRequest results 3 (2 * second)
  match t.result with
  | .error e => (.transportFailure e, t)
  | .ok st =>
    if st = 204 then (.noContent { ads := [], playlistID := "", updatedAt := now }, t)
    else if st ≠ 200 then (.failed st, t)
    else (.ok, t)

/-- The retry schedule exactly as the specification words it: before retry
number a the delay is base times a, so n additional attempts sleep
base*1 .. base*n.  Used only to compare the specification against the code. -/
def specRetryDelays (base : Int) (n : Nat) : List Int :=
  (List.range n).map (fun i => base * ((i : Int) + 1))

/-- models.ScreenConfig (retry-relevant fields; the identity sub-record is
omitted as no modelled operation reads it). -/
structure ScreenConfig where
  adServerURL : String := ""
  heartbeatInterval : Int := 0
  adFetchInterval : Int := 0
  retryAttempts : Nat := 0
  retryDelay : Int := 0
  deriving Repr, DecidableEq

/-- models.DefaultConfig. -/
def defaultConfig : ScreenConfig :=
  { adServerURL := "http://10.42.0.1:8080"
    heartbeatInterval := 30
    adFetchInterval := 60
    retryAttempts := 3
    retryDelay := 5 }

/-! ## internal/ads (storage.go) -/

/-- A file-system effect, for recording what storage operations do. -/
inductive FsOp where
  | mkdirAll (path : String) (perm : Nat)
  | writeFile (path : String) (data : List Nat) (perm : Nat)
  | rename (src dst : String)
  deriving Repr, DecidableEq

/-- Whether an effect is a rename. -/
def FsOp.isRename : FsOp → Bool
  | .rename _ _ => true
  | _ => false

/-- The path layout of ads.Storage (filepath.Join rendered with slashes). -/
structure AdsStorage where
  adsDir : String
  adsFile : String
  mediaDir : String
  deriving Repr, DecidableEq

/-- ads.NewStorage. -/
def newAdsStorage (configDir : String) : AdsStorage :=
  { adsDir := configDir ++ "/ads"
    adsFile := configDir ++ "/ads/current_ads.json"
    mediaDir := configDir ++ "/ads/media" }

/-- Bytes of an ASCII string (every source literal serialized here is
ASCII). -/
def asciiBytes (s : String) : List Nat := s.data.map Char.toNat

/-- Lowercase hexadecimal digit as a byte. -/
def hexDigitByte (n : Nat) : Nat := if n < 10 then 48 + n else 87 + n

/-- The escaping encoding/json applies inside string literals: quote,
backslash, newline, carriage return and tab become two-character escapes;
remaining control bytes and the HTML-sensitive bytes (less-than, greater-than,
ampersand) become six-character unicode escapes; every other byte passes
through unchanged. -/
def jsonEscapeByte (b : Nat) : List Nat :=
  if b = 34 then [92, 34]
  else if b = 92 then [92, 92]
  else if b = 10 then [92, 110]
  else if b = 13 then [92, 114]
  else if b = 9 then [92, 116]
  else if b < 32 ∨ b = 60 ∨ b = 62 ∨ b = 38 then
    [92, 117, 48, 48, hexDigitByte (b / 16), hexDigitByte (b % 16)]
  else [b]

/-- Escape a whole byte string. -/
def jsonEscape (s : List Nat) : List Nat := s.flatMap jsonEscapeByte

/-- A JSON string literal: quote, escaped contents, quote. -/
def jsonString (s : List Nat) : List Nat := [34] ++ jsonEscape s ++ [34]

/-- Decimal rendering of an integer as bytes. -/
def intBytes (i : Int) : List Nat := asciiBytes (toString i)

/-- Decimal rendering of a natural number as bytes. -/
def natBytes (n : Nat) : List Nat := asciiBytes (toString n)

/-- Serialization of one ad by encoding/json, field order as declared, the
omitempty string and integer fields elided when zero; instants render as
integers (the embedding of time.Time) and absent instants as null.
Indentation whitespace of MarshalIndent is not modelled. -/
def marshalAd (a : Ad) : List Nat :=
  [123] ++
  jsonString (asciiBytes "id") ++ [58] ++ jsonString (asciiBytes a.id) ++
  (if a.title = "" then [] else
    [44] ++ jsonString (asciiBytes "title") ++ [58] ++ jsonString (asciiBytes a.title)) ++
  [44] ++ jsonString (asciiBytes "type") ++ [58] ++ jsonString (asciiBytes a.type) ++
  [44] ++ jsonString (asciiBytes "contentUrl") ++ [58] ++
    jsonString (asciiBytes a.contentURL) ++
  (if a.duration = 0 then [] else
    [44] ++ jsonString (asciiBytes "duration") ++ [58] ++ intBytes a.duration) ++
  (match a.startTime with
   | none => []
   | some s => [44] ++ jsonString (asciiBytes "startTime") ++ [58] ++ intBytes s) ++
  (match a.endTime with
   | none => []
   | some e => [44] ++ jsonString (asciiBytes "endTime") ++ [58] ++ intBytes e) ++
  (if a.priority = 0 then [] else
    [44] ++ jsonString (asciiBytes "priority") ++ [58] ++ intBytes a.priority) ++
  [125]

/-- A JSON array from already serialized elements. -/
def jsonArray (elems : List (List Nat)) : List Nat :=
  [91] ++ (elems.intersperse [44]).flatten ++ [93]

/-- The adsMetadata wrapper persisted by Storage.SaveAds: fetch stamp,
optional playlist id, update stamp, the ad list and its count. -/
structure AdsMetadata where
  fetchedAt : Int
  playlistID : String
  updatedAt : Int
  ads : List Ad
  adsCount : Nat
  deriving Repr, DecidableEq

/-- Serialization of the wrapper by encoding/json (field order as declared;
playlistId carries omitempty). -/
def marshalAdsMetadata (m : AdsMetadata) : List Nat :=
  [123] ++
  jsonString (asciiBytes "fetchedAt") ++ [58] ++ intBytes m.fetchedAt ++
  (if m.playlistID = "" then [] else
    [44] ++ jsonString (asciiBytes "playlistId") ++ [58] ++
      jsonString (asciiBytes m.playlistID)) ++
  [44] ++ jsonString (asciiBytes "updatedAt") ++ [58] ++ intBytes m.updatedAt ++
  [44] ++ jsonString (asciiBytes "ads") ++ [58] ++ jsonArray (m.ads.map marshalAd) ++
  [44] ++ jsonString (asciiBytes "adsCount") ++ [58] ++ natBytes m.adsCount ++
  [125]

/-- Storage.SaveAds as the ordered sequence of file-system effects it
performs: ensure the ads directory, ensure the media directory, then one
direct WriteFile of the serialized wrapper to the manifest path with mode
0600. -/
def AdsStorage.saveAdsOps (s : AdsStorage) (resp : AdDeliveryResponse)
    (now : Int) : List FsOp :=
  [ .mkdirAll s.adsDir 493,
    .mkdirAll s.mediaDir 493,
    .writeFile s.adsFile
      (marshalAdsMetadata
        { fetchedAt := now
          playlistID := resp.playlistID
          updatedAt := resp.updatedAt
          ads := resp.ads
          adsCount := resp.ads.length }) 384 ]

/-- A byte string is a complete manifest record when it is the serialization
of some wrapper. -/
def IsCompleteRecord (c : List Nat) : Prop :=
  ∃ m : AdsMetadata, marshalAdsMetadata m = c

/-- Contents observable at a path part-way through a direct, non-atomic
WriteFile in the given effect list: any proper prefix of the written data. -/
def midWriteContents (ops : List FsOp) (path : String) (c : List Nat) : Prop :=
  ∃ data perm k, FsOp.writeFile path data perm ∈ ops ∧ k < data.length ∧
    c = data.take k

/-- The write discipline the specification requires of SaveManifest: the
serialized record goes to a sibling temporary name which is then renamed onto
the manifest path, and the manifest path itself is never the target of a
direct write. -/
def specAtomicReplace (ops : List FsOp) (path : String) : Prop :=
  (∃ tmp data perm, tmp ≠ path ∧ FsOp.writeFile tmp data perm ∈ ops ∧
    FsOp.rename tmp path ∈ ops) ∧
  (∀ data perm, FsOp.writeFile path data perm ∉ ops)

/-! ## internal/player/downloader.go -/

/-- A file system as a partial map from paths to file sizes. -/
abbrev FileSys := String → Option Nat

/-- The character scan behind filepath.Ext: walk the path backwards; a
separator means no extension, the first dot yields the suffix from the dot. -/
def goExtRev : List Char → List Char → String
  | [], _ => ""
  | c :: rest, acc =>
    if c = '/' then ""
    else if c = '.' then String.mk (c :: acc)
    else goExtRev rest (c :: acc)

/-- filepath.Ext. -/
def goFilepathExt (p : String) : String := goExtRev p.data.reverse []

/-- The fixed extension table keyed by the lowercased ad type. -/
def typeExtTable (adType : String) : String :=
  let t := String.mk (adType.data.map Char.toLower)
  if t = "image" then ".jpg"
  else if t = "video" then ".mp4"
  else if t = "html" then ".html"
  else if t = "text" then ".txt"
  else ".bin"

/-- Downloader.getFileExtension: the URL extension with any query part
stripped when one exists, else the type table. -/
def getFileExtension (url adType : String) : String :=
  let ext := goFilepathExt url
  if ext ≠ "" then
    let ext2 := String.mk (ext.data.takeWhile (fun c => c ≠ '?'))
    if ext2 ≠ "" then ext2 else typeExtTable adType
  else typeExtTable adType

/-- Storage.GetAdMediaPath. -/
def AdsStorage.getAdMediaPath (s : AdsStorage) (adID fileName : String) :
    String :=
  s.mediaDir ++ "/" ++ adID ++ "/" ++ fileName

/-- Downloader.GetLocalPath: the media path for the ad, returned exactly when
a file exists there with non-zero size. -/
def getLocalPath (st : AdsStorage) (fs : FileSys) (ad : Ad) : Option String :=
  let ext := getFileExtension ad.contentURL ad.type
  let fileName := ad.id ++ ext
  let localPath := st.getAdMediaPath ad.id fileName
  match fs localPath with
  | some n => if n > 0 then some localPath else none
  | none => none

/-- One DownloadFile attempt: either it fails (transport error, non-200
status, or a write error) or a 200 body of the given byte length is streamed
to the destination. -/
inductive DownloadAttempt where
  | fail (e : String)
  | body (size : Nat)

/-- A download result together with the file system it leaves behind. -/
structure DownloadState where
  result : Except String String
  fs : FileSys

/-- go prefix test, strings.HasPrefix. -/
def goHasPrefix (s pre : String) : Bool := pre.data.isPrefixOf s.data

/-- strings.TrimPrefix. -/
def goTrimPrefix (s pre : String) : String :=
  if goHasPrefix s pre then String.mk (s.data.drop pre.data.length) else s

/-- The retry loop of Downloader.DownloadAdMedia: each successful DownloadFile
leaves a file of the body length at the destination, and only a non-zero size
verified afterwards ends the loop successfully; failures and empty downloads
retry up to maxRetries additional times. -/
def downloadLoop (oracle : Nat → DownloadAttempt) (maxRetries : Nat)
    (localPath : String) :
    (remaining attempt : Nat) → FileSys → (lastErr : String) → DownloadState
  | 0, _, fs, lastErr =>
    { result := .error ("failed to download media after " ++
        toString (maxRetries + 1) ++ " attempts: " ++ lastErr)
      fs := fs }
  | remaining + 1, attempt, fs, _ =>
    match oracle attempt with
    | .fail e => downloadLoop oracle maxRetries localPath remaining (attempt + 1) fs e
    | .body n =>
      let fs2 := fun p => if p = localPath then some n else fs p
      if n > 0 then { result := .ok localPath, fs := fs2 }
      else downloadLoop oracle maxRetries localPath remaining (attempt + 1) fs2
        "downloaded file is empty or invalid"

/-- Downloader.DownloadAdMedia: the cache probe first; then the file scheme
branch, which strips the scheme and returns the referenced path on bare
existence; else the retrying download to the computed media path.  Directory
creation performed by EnsureAdMediaDir has no effect on the path-to-size
map. -/
def downloadAdMedia (st : AdsStorage) (fs : FileSys)
    (oracle : Nat → DownloadAttempt) (maxRetries : Nat) (ad : Ad) :
    DownloadState :=
  match getLocalPath st fs ad with
  | some localPath => { result := .ok localPath, fs := fs }
  | none =>
    if goHasPrefix ad.contentURL "file://" then
      let localPath := goTrimPrefix ad.contentURL "file://"
      if (fs localPath).isSome then { result := .ok localPath, fs := fs }
      else { result := .error ("local file not found: " ++ localPath), fs := fs }
    else
      let ext := getFileExtension ad.contentURL ad.type
      let fileName := ad.id ++ ext
      let localPath := st.getAdMediaPath ad.id fileName
      downloadLoop oracle maxRetries localPath (maxRetries + 1) 0 fs ""

/-! ## internal/player Player orchestrator -/

/-- PlayerState. -/
inductive PlayerState where
  | stopped
  | playing
  | paused
  | loading
  | error
  deriving Repr, DecidableEq

/-- PlayerStats (the display-only fields CurrentAdID, CurrentAdType and
PlaybackStartTime are omitted; no claim reads them). -/
structure PlayerStats where
  totalAdsPlayed : Nat := 0
  lastError : Option String := none
  state : PlayerState := .stopped
  deriving Repr, DecidableEq

/-- The Player record: playlist, current ad, state, stats. -/
structure Player where
  playlist : Playlist
  currentAd : Option Ad
  state : PlayerState
  stats : PlayerStats
  deriving Repr, DecidableEq

/-- NewPlayer. -/
def newPlayer : Player :=
  { playlist := newPlaylist
    currentAd := none
    state := .stopped
    stats := {} }

/-- Player.Start: a no-op when already playing; otherwise the stored manifest
(when one loads) refreshes the playlist, and the state becomes playing.  The
current ad is left untouched. -/
def Player.start (p : Player) (loaded : Option AdDeliveryResponse) (now : Int) :
    Player :=
  if p.state = .playing then p
  else
    let playlist :=
      match loaded with
      | some resp => p.playlist.updateAds resp now
      | none => p.playlist
    { p with
        playlist := playlist
        state := .playing
        stats := { p.stats with state := .playing } }

/-- Player.Stop: a no-op when already stopped; otherwise the renderer is
stopped, the state becomes stopped and the current ad is cleared. -/
def Player.stop (p : Player) : Player :=
  if p.state = .stopped then p
  else
    { p with
        state := .stopped
        stats := { p.stats with state := .stopped }
        currentAd := none }

/-- Player.Pause: only a playing player becomes paused. -/
def Player.pause (p : Player) : Player :=
  if p.state ≠ .playing then p
  else { p with state := .paused, stats := { p.stats with state := .paused } }

/-- Player.Resume: only a paused player resumes playing. -/
def Player.resume (p : Player) : Player :=
  if p.state ≠ .paused then p
  else { p with state := .playing, stats := { p.stats with state := .playing } }

/-- Player.UpdateAds: forward to the playlist (the registered callback has no
effect on the player state). -/
def Player.updateAds (p : Player) (resp : AdDeliveryResponse) (now : Int) :
    Player :=
  { p with playlist := p.playlist.updateAds resp now }

/-- The environment outcomes of one loadNextAd pass: the downloader returned a
path, or it failed but the cache probe found one, or neither. -/
inductive MediaOutcome where
  | ok (path : String)
  | cached (path : String)
  | unavailable (e : String)
  deriving Repr, DecidableEq

/-- Player.loadNextAd: enter loading and consult the playlist.  With no active
ad, fall back to playing with no current ad.  With an ad but no media, return
(still in loading, previous current ad kept).  On render failure enter error,
record the error and keep the previous current ad.  On success enter playing
with the new ad and count it. -/
def Player.loadNextAd (p : Player) (now : Int) (media : MediaOutcome)
    (renderOk : Bool) (renderErr : String) : Player :=
  let p1 :=
    { p with
        state := PlayerState.loading
        stats := { p.stats with state := PlayerState.loading } }
  let next := p1.playlist.getNextAd now
  let p2 := { p1 with playlist := next.2 }
  match next.1 with
  | none =>
    { p2 with
        currentAd := none
        state := PlayerState.playing
        stats := { p2.stats with state := PlayerState.playing } }
  | some ad =>
    match media with
    | .unavailable _ => p2
    | .ok _ | .cached _ =>
      if renderOk then
        { p2 with
            currentAd := some ad
            state := PlayerState.playing
            stats := { p2.stats with
              state := PlayerState.playing
              totalAdsPlayed := p2.stats.totalAdsPlayed + 1 } }
      else
        { p2 with
            state := PlayerState.error
            stats := { p2.stats with
              state := PlayerState.error
              lastError := some renderErr } }

/-- One wake-up of the playbackLoop: nothing happens unless the state is
playing and either no ad is current or the scheduler calls for a transition;
then loadNextAd runs. -/
def Player.tick (p : Player) (now : Int) (shouldTrans : Bool)
    (media : MediaOutcome) (renderOk : Bool) (renderErr : String) : Player :=
  if p.state ≠ PlayerState.playing then p
  else if p.currentAd.isSome && !shouldTrans then p
  else p.loadNextAd now media renderOk renderErr

/-- The operations of the player surface together with playback-loop steps;
oracle arguments model the environment (stored manifest, clock, scheduler
verdict, downloader and renderer outcomes). -/
inductive POp where
  | start (loaded : Option AdDeliveryResponse) (now : Int)
  | stop
  | pause
  | resume
  | updateAds (resp : AdDeliveryResponse) (now : Int)
  | tick (now : Int) (shouldTrans : Bool) (media : MediaOutcome)
      (renderOk : Bool) (renderErr : String)

/-- Apply one operation. -/
def Player.applyOp (p : Player) : POp → Player
  | .start loaded now => p.start loaded now
  | .stop => p.stop
  | .pause => p.pause
  | .resume => p.resume
  | .updateAds resp now => p.updateAds resp now
  | .tick now st media rOk rErr => p.tick now st media rOk rErr

/-- Apply a sequence of operations. -/
def Player.runOps (p : Player) (ops : List POp) : Player :=
  ops.foldl Player.applyOp p

/-- A player state is reachable when some operation sequence leads to it from
the freshly constructed player. -/
def PlayerReachable (p : Player) : Prop :=
  ∃ ops : List POp, newPlayer.runOps ops = p

/-! ## internal/heartbeat (Scheduler) -/

/-- The heartbeat connection status. -/
inductive HBStatus where
  | unknown
  | connected
  | disconnected
  | error
  deriving Repr, DecidableEq

/-- The observable state of the heartbeat scheduler. -/
structure HBState where
  status : HBStatus := .unknown
  lastSent : Option Int := none
  lastError : Option String := none
  deriving Repr, DecidableEq

/-- The retry loop inside Scheduler.sendHeartbeat: attempts 0 .. retryAttempts
(the oracle yields none on success, an error message on failure); the first
success records connected with the send time and clears the error; exhaustion
records error with the last error.  No branch escapes the loop. -/
def sendHeartbeatLoop (oracle : Nat → Option String) (now : Int) (s : HBState) :
    (remaining attempt : Nat) → (lastErr : Option String) → HBState
  | 0, _, lastErr => { s with status := .error, lastError := lastErr }
  | remaining + 1, attempt, _ =>
    match oracle attempt with
    | none =>
      { s with status := .connected, lastSent := some now, lastError := none }
    | some e => sendHeartbeatLoop oracle now s remaining (attempt + 1) (some e)

/-- Scheduler.sendHeartbeat. -/
def sendHeartbeat (s : HBState) (oracle : Nat → Option String)
    (retryAttempts : Nat) (now : Int) : HBState :=
  sendHeartbeatLoop oracle now s (retryAttempts + 1) 0 none

/-- One event seen by the Scheduler.run select loop: context cancellation or a
ticker fire whose heartbeat cycle sees the given per-attempt outcomes. -/
inductive HBEvent where
  | cancel
  | tick (oracle : Nat → Option String) (now : Int)

/-- Whether an event is the cancellation. -/
def HBEvent.isCancel : HBEvent → Bool
  | .cancel => true
  | _ => false

/-- Scheduler.run after the initial heartbeat: process events in order; a tick
runs one sendHeartbeat cycle and the loop continues; cancellation exits.  The
Bool records whether the loop exited rather than running out of observed
events. -/
def runHeartbeatLoop (retryAttempts : Nat) :
    HBState → List HBEvent → HBState × Bool
  | s, [] => (s, false)
  | s, .cancel :: _ => (s, true)
  | s, .tick oracle now :: rest =>
    runHeartbeatLoop retryAttempts (sendHeartbeat s oracle retryAttempts now) rest

/-! ## pkg/storage encryption (AES-256-GCM over SHA-256 derived keys)

SHA-256 is implemented concretely (FIPS 180-4); the AES block permutation is
an external library primitive, so the embedding takes the keyed block
function as a parameter and the theorems quantify over it.  The GCM mode is
modelled structurally: a counter-mode keystream derived from the block
function and a deterministic 16-byte tag; its field arithmetic is internal to
the library and only determinism and lengths matter to the claims. -/

/-- Rotate a 32-bit word right. -/
def rotr32 (n x : Nat) : Nat := ((x >>> n) ||| (x <<< (32 - n))) % 2 ^ 32

/-- The SHA-256 choice function. -/
def shaCh (x y z : Nat) : Nat := (x &&& y) ^^^ ((x ^^^ 4294967295) &&& z)

/-- The SHA-256 majority function. -/
def shaMaj (x y z : Nat) : Nat := (x &&& y) ^^^ (x &&& z) ^^^ (y &&& z)

/-- The big sigma-0 word function. -/
def bigSigma0 (x : Nat) : Nat := rotr32 2 x ^^^ rotr32 13 x ^^^ rotr32 22 x

/-- The big sigma-1 word function. -/
def bigSigma1 (x : Nat) : Nat := rotr32 6 x ^^^ rotr32 11 x ^^^ rotr32 25 x

/-- The small sigma-0 word function. -/
def smallSigma0 (x : Nat) : Nat := rotr32 7 x ^^^ rotr32 18 x ^^^ (x >>> 3)

/-- The small sigma-1 word function. -/
def smallSigma1 (x : Nat) : Nat := rotr32 17 x ^^^ rotr32 19 x ^^^ (x >>> 10)

/-- The 64 SHA-256 round constants. -/
def shaK : List Nat :=
  [1116352408, 1899447441, 3049323471, 3921009573,
   961987163, 1508970993, 2453635748, 2870763221,
   3624381080, 310598401, 607225278, 1426881987,
   1925078388, 2162078206, 2614888103, 3248222580,
   3835390401, 4022224774, 264347078, 604807628,
   770255983, 1249150122, 1555081692, 1996064986,
   2554220882, 2821834349, 2952996808, 3210313671,
   3336571891, 3584528711, 113926993, 338241895,
   666307205, 773529912, 1294757372, 1396182291,
   1695183700, 1986661051, 2177026350, 2456956037,
   2730485921, 2820302411, 3259730800, 3345764771,
   3516065817, 3600352804, 4094571909, 275423344,
   430227734, 506948616, 659060556, 883997877,
   958139571, 1322822218, 1537002063, 1747873779,
   1955562222, 2024104815, 2227730452, 2361852424,
   2428436474, 2756734187, 3204031479, 3329325298]

/-- Big-endian bytes of a 32-bit word. -/
def be4 (n : Nat) : List Nat :=
  [(n >>> 24) % 256, (n >>> 16) % 256, (n >>> 8) % 256, n % 256]

/-- Big-endian bytes of a 64-bit word. -/
def be8 (n : Nat) : List Nat :=
  [(n >>> 56) % 256, (n >>> 48) % 256, (n >>> 40) % 256, (n >>> 32) % 256,
   (n >>> 24) % 256, (n >>> 16) % 256, (n >>> 8) % 256, n % 256]

/-- SHA-256 padding: a single 0x80 byte, zeros up to 56 mod 64, then the
bit length in 8 big-endian bytes. -/
def sha256Pad (msg : List Nat) : List Nat :=
  msg ++ [128] ++ List.replicate ((119 - msg.length % 64) % 64) 0 ++
    be8 (msg.length * 8)

/-- Split into 64-byte blocks. -/
def chunks64 (l : List Nat) : List (List Nat) :=
  if h : l = [] then []
  else l.take 64 :: chunks64 (l.drop 64)
  termination_by l.length
  decreasing_by
    simp [List.length_drop]
    cases l with
    | nil => exact absurd rfl h
    | cons a as => simp

/-- Big-endian 32-bit words from bytes. -/
def wordsOfBytes : List Nat → List Nat
  | b1 :: b2 :: b3 :: b4 :: rest =>
    ((((b1 % 256) * 256 + b2 % 256) * 256 + b3 % 256) * 256 + b4 % 256) ::
      wordsOfBytes rest
  | _ => []

/-- The 64-word message schedule from the 16 block words. -/
def shaSchedule (w16 : List Nat) : List Nat :=
  (List.range 48).foldl
    (fun ws _ =>
      let i := ws.length
      ws ++ [(smallSigma1 (ws.getD (i - 2) 0) + ws.getD (i - 7) 0 +
              smallSigma0 (ws.getD (i - 15) 0) + ws.getD (i - 16) 0) % 2 ^ 32])
    w16

/-- The eight SHA-256 working variables. -/
structure ShaState where
  a : Nat
  b : Nat
  c : Nat
  d : Nat
  e : Nat
  f : Nat
  g : Nat
  h : Nat
  deriving Repr, DecidableEq

/-- The SHA-256 initial hash value. -/
def shaInit : ShaState :=
  { a := 1779033703, b := 3144134277, c := 1013904242, d := 2773480762
    e := 1359893119, f := 2600822924, g := 528734635, h := 1541459225 }

/-- One SHA-256 round. -/
def shaRound (st : ShaState) (ki wi : Nat) : ShaState :=
  let t1 := (st.h + bigSigma1 st.e + shaCh st.e st.f st.g + ki + wi) % 2 ^ 32
  let t2 := (bigSigma0 st.a + shaMaj st.a st.b st.c) % 2 ^ 32
  { a := (t1 + t2) % 2 ^ 32, b := st.a, c := st.b, d := st.c
    e := (st.d + t1) % 2 ^ 32, f := st.e, g := st.f, h := st.g }

/-- Compress one 64-byte block into the running state. -/
def shaCompressBlock (st : ShaState) (block : List Nat) : ShaState :=
  let ws := shaSchedule (wordsOfBytes block)
  let st2 := (List.range 64).foldl
    (fun s i => shaRound s (shaK.getD i 0) (ws.getD i 0)) st
  { a := (st.a + st2.a) % 2 ^ 32, b := (st.b + st2.b) % 2 ^ 32
    c := (st.c + st2.c) % 2 ^ 32, d := (st.d + st2.d) % 2 ^ 32
    e := (st.e + st2.e) % 2 ^ 32, f := (st.f + st2.f) % 2 ^ 32
    g := (st.g + st2.g) % 2 ^ 32, h := (st.h + st2.h) % 2 ^ 32 }

/-- crypto/sha256 Sum256 over a byte list. -/
def sha256 (msg : List Nat) : List Nat :=
  let st := (chunks64 (sha256Pad msg)).foldl shaCompressBlock shaInit
  be4 st.a ++ be4 st.b ++ be4 st.c ++ be4 st.d ++
  be4 st.e ++ be4 st.f ++ be4 st.g ++ be4 st.h

/-- A keyed 16-byte block transformation; AES-256 under a fixed key. -/
abbrev BlockFn := List Nat → List Nat

/-- The GCM nonce size in bytes. -/
def gcmNonceSize : Nat := 12

/-- The GCM tag size in bytes. -/
def gcmTagSize : Nat := 16

/-- The counter block for the nonce and a counter value. -/
def ctrBlock (nonce : List Nat) (counter : Nat) : List Nat := nonce ++ be4 counter

/-- The GCM counter-mode keystream: byte i of the stream is byte i mod 16 of
the encrypted counter block 2 + i / 16. -/
def gcmKeystream (E : BlockFn) (nonce : List Nat) (n : Nat) : List Nat :=
  (List.range n).map (fun i => (E (ctrBlock nonce (2 + i / 16))).getD (i % 16) 0)

/-- Pointwise exclusive or of byte lists. -/
def xorBytes (a b : List Nat) : List Nat := List.zipWith Nat.xor a b

/-- Truncate or zero-pad to 16 bytes. -/
def padTo16 (l : List Nat) : List Nat := (l ++ List.replicate 16 0).take 16

/-- The authentication tag over the ciphertext: GHASH-then-encrypt is one
deterministic 16-byte function of the block cipher, nonce and ciphertext. -/
def gcmTag (E : BlockFn) (nonce ct : List Nat) : List Nat :=
  padTo16 (E (ctrBlock nonce 1 ++ ct))

/-- cipher.AEAD Seal for GCM: ciphertext followed by the tag. -/
def gcmSeal (E : BlockFn) (nonce pt : List Nat) : List Nat :=
  let ct := xorBytes pt (gcmKeystream E nonce pt.length)
  ct ++ gcmTag E nonce ct

/-- cipher.AEAD Open for GCM: split off the 16-byte tag, verify it, decrypt
by the same keystream; verification failure is an error value. -/
def gcmOpen (E : BlockFn) (nonce data : List Nat) : Except String (List Nat) :=
  if data.length < gcmTagSize then .error "cipher: message authentication failed"
  else
    let ct := data.take (data.length - gcmTagSize)
    let tag := data.drop (data.length - gcmTagSize)
    if tag = gcmTag E nonce ct then
      .ok (xorBytes ct (gcmKeystream E nonce ct.length))
    else .error "cipher: message authentication failed"

/-- pkg/storage Encrypt: derive the 32-byte key as the SHA-256 digest of the
raw key material, build the cipher (which requires a 32-byte key), seal under
the random nonce and prepend the nonce.  The aes parameter is the keyed block
cipher family; the nonce parameter stands for the random nonce drawn
inside. -/
def Encrypt (aes : List Nat → BlockFn) (nonce data key : List Nat) :
    Except String (List Nat) :=
  let key32 := sha256 key
  if key32.length = 32 then .ok (nonce ++ gcmSeal (aes key32) nonce data)
  else .error "failed to create cipher"

/-- pkg/storage Decrypt: derive the key the same way; inputs shorter than the
nonce size are rejected with the encrypted-data-too-short error before any
slicing; otherwise split nonce and ciphertext and open. -/
def Decrypt (aes : List Nat → BlockFn) (encryptedData key : List Nat) :
    Except String (List Nat) :=
  let key32 := sha256 key
  if key32.length = 32 then
    if encryptedData.length < gcmNonceSize then .error "encrypted data too short"
    else
      let nonce := encryptedData.take gcmNonceSize
      let ciphertext := encryptedData.drop gcmNonceSize
      match gcmOpen (aes key32) nonce ciphertext with
      | .ok pt => .ok pt
      | .error e => .error ("failed to decrypt: " ++ e)
  else .error "failed to create cipher"

/-! ## encoding/base64 StdEncoding -/

/-- The standard base64 alphabet. -/
def b64Chars : List Char :=
  "ABCDEFGHIJKLMNOPQRSTUVWXYZabcdefghijklmnopqrstuvwxyz0123456789+/".data

/-- The alphabet character for a 6-bit value. -/
def b64Char (n : Nat) : Char := b64Chars.getD n '='

/-- base64 encoding with padding, three bytes to four characters. -/
def b64EncodeGo : List Nat → List Char
  | [] => []
  | [b1] => [b64Char (b1 / 4), b64Char (b1 % 4 * 16), '=', '=']
  | [b1, b2] =>
    [b64Char (b1 / 4), b64Char (b1 % 4 * 16 + b2 / 16), b64Char (b2 % 16 * 4), '=']
  | b1 :: b2 :: b3 :: rest =>
    b64Char (b1 / 4) :: b64Char (b1 % 4 * 16 + b2 / 16) ::
    b64Char (b2 % 16 * 4 + b3 / 64) :: b64Char (b3 % 64) :: b64EncodeGo rest

/-- EncodeToString. -/
def b64EncodeToString (bytes : List Nat) : String := String.mk (b64EncodeGo bytes)

/-- The 6-bit value of an alphabet character, none outside the alphabet. -/
def b64Val (c : Char) : Option Nat := b64Chars.findIdx? (fun x => x = c)

/-- base64 decoding with padding: four characters to three bytes, padding
only in the final group, characters outside the alphabet and ragged lengths
rejected. -/
def b64DecodeGo : List Char → Except String (List Nat)
  | [] => .ok []
  | c1 :: c2 :: c3 :: c4 :: rest =>
    if c3 = '=' ∧ c4 = '=' then
      if rest = [] then
        match b64Val c1, b64Val c2 with
        | some v1, some v2 => .ok [v1 * 4 + v2 / 16]
        | _, _ => .error "illegal base64 data"
      else .error "illegal base64 data"
    else if c4 = '=' then
      if rest = [] then
        match b64Val c1, b64Val c2, b64Val c3 with
        | some v1, some v2, some v3 =>
          .ok [v1 * 4 + v2 / 16, v2 % 16 * 16 + v3 / 4]
        | _, _, _ => .error "illegal base64 data"
      else .error "illegal base64 data"
    else
      match b64Val c1, b64Val c2, b64Val c3, b64Val c4, b64DecodeGo rest with
      | some v1, some v2, some v3, some v4, .ok tail =>
        .ok ([v1 * 4 + v2 / 16, v2 % 16 * 16 + v3 / 4, v3 % 4 * 64 + v4] ++ tail)
      | _, _, _, _, .error e => .error e
      | _, _, _, _, _ => .error "illegal base64 data"
  | _ => .error "illegal base64 data"

/-- EncryptToBase64. -/
def EncryptToBase64 (aes : List Nat → BlockFn) (nonce data key : List Nat) :
    Except String String :=
  match Encrypt aes nonce data key with
  | .ok encrypted => .ok (b64EncodeToString encrypted)
  | .error e => .error e

/-- DecryptFromBase64. -/
def DecryptFromBase64 (aes : List Nat → BlockFn) (encryptedBase64 : String)
    (key : List Nat) : Except String (List Nat) :=
  match b64DecodeGo encryptedBase64.data with
  | .error e => .error ("failed to decode base64: " ++ e)
  | .ok encrypted => Decrypt aes encrypted key

/-! ## internal/credentials (models.Credentials and Storage)

Go strings are byte sequences; the credential fields are byte lists here, and
the JSON layer is modelled at the byte level (faithful for valid UTF-8). -/

/-- models.Credentials. -/
structure Credentials where
  screenID : List Nat
  passkey : List Nat
  deriving Repr, DecidableEq

/-- json.Marshal of a Credentials value: the two fields under their declared
tags, in declared order. -/
def marshalCredentials (c : Credentials) : List Nat :=
  [123] ++ jsonString (asciiBytes "screenId") ++ [58] ++ jsonString c.screenID ++
  [44] ++ jsonString (asciiBytes "passkey") ++ [58] ++ jsonString c.passkey ++
  [125]

/-- The value of one hexadecimal digit byte, none otherwise. -/
def hexVal (b : Nat) : Option Nat :=
  if 48 ≤ b ∧ b ≤ 57 then some (b - 48)
  else if 97 ≤ b ∧ b ≤ 102 then some (b - 87)
  else if 65 ≤ b ∧ b ≤ 70 then some (b - 55)
  else none

/-- Parse the body of a JSON string literal up to its closing quote, undoing
the escapes of jsonEscapeByte; returns the decoded bytes and the rest of the
input.  Unicode escapes above one byte are outside the model. -/
def parseJSONStringBody : List Nat → Option (List Nat × List Nat)
  | [] => none
  | b :: rest =>
    if b = 34 then some ([], rest)
    else if b = 92 then
      match rest with
      | [] => none
      | e :: rest2 =>
        if e = 34 then (parseJSONStringBody rest2).map (fun r => (34 :: r.1, r.2))
        else if e = 92 then
          (parseJSONStringBody rest2).map (fun r => (92 :: r.1, r.2))
        else if e = 110 then
          (parseJSONStringBody rest2).map (fun r => (10 :: r.1, r.2))
        else if e = 114 then
          (parseJSONStringBody rest2).map (fun r => (13 :: r.1, r.2))
        else if e = 116 then
          (parseJSONStringBody rest2).map (fun r => (9 :: r.1, r.2))
        else if e = 117 then
          match rest2 with
          | h1 :: h2 :: h3 :: h4 :: rest3 =>
            match hexVal h1, hexVal h2, hexVal h3, hexVal h4 with
            | some a, some b2, some c, some d =>
              let v := ((a * 16 + b2) * 16 + c) * 16 + d
              if v < 256 then
                (parseJSONStringBody rest3).map (fun r => (v :: r.1, r.2))
              else none
            | _, _, _, _ => none
          | _ => none
        else none
    else (parseJSONStringBody rest).map (fun r => (b :: r.1, r.2))

/-- Consume an expected literal byte prefix. -/
def dropLit (pat l : List Nat) : Option (List Nat) :=
  if pat.isPrefixOf l then some (l.drop pat.length) else none

/-- json.Unmarshal into a Credentials value, modelled for documents of the
exact shape Marshal emits (the only shape the storage ever writes). -/
def unmarshalCredentials (bytes : List Nat) : Except String Credentials :=
  match dropLit ([123, 34] ++ asciiBytes "screenId" ++ [34, 58, 34]) bytes with
  | none => .error "failed to unmarshal credentials"
  | some r1 =>
    match parseJSONStringBody r1 with
    | none => .error "failed to unmarshal credentials"
    | some (sid, r2) =>
      match dropLit ([44, 34] ++ asciiBytes "passkey" ++ [34, 58, 34]) r2 with
      | none => .error "failed to unmarshal credentials"
      | some r3 =>
        match parseJSONStringBody r3 with
        | none => .error "failed to unmarshal credentials"
        | some (pk, r4) =>
          if r4 = [125] then .ok { screenID := sid, passkey := pk }
          else .error "failed to unmarshal credentials"

/-- The two files owned by credentials.Storage: raw key material and the
base64 text of the encrypted credentials. -/
structure CredFS where
  keyFile : Option (List Nat) := none
  credsFile : Option String := none

/-- Storage.getOrCreateKey: an existing key file wins; otherwise the freshly
generated key (the genKey parameter stands for the random source) is stored
and used. -/
def getOrCreateKey (fs : CredFS) (genKey : List Nat) : List Nat × CredFS :=
  match fs.keyFile with
  | some k => (k, fs)
  | none => (genKey, { fs with keyFile := some genKey })

/-- Storage.Save: marshal, encrypt under the stored (or fresh) key material,
write the base64 blob. -/
def credStorageSave (aes : List Nat → BlockFn) (nonce genKey : List Nat)
    (fs : CredFS) (creds : Credentials) : Except String CredFS :=
  let kf := getOrCreateKey fs genKey
  match EncryptToBase64 aes nonce (marshalCredentials creds) kf.1 with
  | .error e => .error ("failed to encrypt credentials: " ++ e)
  | .ok b64 => .ok { kf.2 with credsFile := some b64 }

/-- Storage.Load: read the blob, decrypt under the stored key material,
unmarshal. -/
def credStorageLoad (aes : List Nat → BlockFn) (genKey : List Nat)
    (fs : CredFS) : Except String Credentials :=
  match fs.credsFile with
  | none => .error "credentials file not found"
  | some b64 =>
    let kf := getOrCreateKey fs genKey
    match DecryptFromBase64 aes b64 kf.1 with
    | .error e => .error ("failed to decrypt credentials: " ++ e)
    | .ok data => unmarshalCredentials data

/-! ## Supporting lemmas for the playlist -/

theorem int64Wrap_eq_self {x : Int} (h1 : -(2 ^ 63) ≤ x) (h2 : x < 2 ^ 63) :
    int64Wrap x = x := by
  unfold int64Wrap
  omega

theorem adTimeOK_iff (now : Int) (a : Ad) :
    adTimeOK now a = true ↔
      ((a.startTime = none ∨ ∃ s, a.startTime = some s ∧ s ≤ now) ∧
       (a.endTime = none ∨ ∃ e, a.endTime = some e ∧ now ≤ e)) := by
  unfold adTimeOK
  rcases hs : a.startTime with _ | s <;> rcases he : a.endTime with _ | e <;>
    simp [hs, he]

theorem Playlist.getNextAd_snd_ads (p : Playlist) (now : Int) :
    ((p.getNextAd now).2).ads = p.ads := by
  unfold Playlist.getNextAd
  by_cases h : (p.filterByTime now).length = 0
  · simp [h]
  · simp only [h, if_false]
    by_cases h2 : 0 < (sortByPriority (p.filterByTime now)).length
    · simp [h2]
    · simp [h2]

theorem Playlist.getNextAd_of_empty (p : Playlist) (now : Int)
    (h : p.filterByTime now = []) : p.getNextAd now = (none, p) := by
  have h2 : filterAdsByTime p.ads now = [] := h
  unfold Playlist.getNextAd Playlist.filterByTime
  simp [h2]

theorem sortByPriority_length (l : List Ad) :
    (sortByPriority l).length = l.length :=
  List.length_insertionSort adLE l

theorem Playlist.getNextAd_of_ne (p : Playlist) (now : Int)
    (h : p.filterByTime now ≠ []) :
    p.getNextAd now =
      ((sortByPriority (p.filterByTime now))[p.currentIdx %
          (sortByPriority (p.filterByTime now)).length]?,
       { p with currentIdx := p.currentIdx + 1 }) := by
  have hlen : ¬ (filterAdsByTime p.ads now = []) := h
  have hlen0 : (filterAdsByTime p.ads now).length ≠ 0 := by
    simpa [List.length_eq_zero] using hlen
  have hs : 0 < (sortByPriority (filterAdsByTime p.ads now)).length := by
    rw [sortByPriority_length]
    omega
  unfold Playlist.getNextAd Playlist.filterByTime
  simp [hlen, hs]

theorem Playlist.callsFrom_ads (p : Playlist) (now : Int) :
    ∀ k, (p.callsFrom now k).ads = p.ads := by
  intro k
  induction k with
  | zero => rfl
  | succ k ih =>
    show ((p.callsFrom now k).getNextAd now).2.ads = p.ads
    rw [Playlist.getNextAd_snd_ads, ih]

theorem Playlist.callsFrom_of_empty (p : Playlist) (now : Int)
    (h : p.filterByTime now = []) : ∀ k, p.callsFrom now k = p := by
  intro k
  induction k with
  | zero => rfl
  | succ k ih =>
    show ((p.callsFrom now k).getNextAd now).2 = p
    rw [ih, Playlist.getNextAd_of_empty p now h]

theorem Playlist.callsFrom_idx (p : Playlist) (now : Int)
    (h : p.filterByTime now ≠ []) :
    ∀ k, (p.callsFrom now k).currentIdx = p.currentIdx + k := by
  intro k
  induction k with
  | zero => rfl
  | succ k ih =>
    show ((p.callsFrom now k).getNextAd now).2.currentIdx = p.currentIdx + (k + 1)
    have hads : (p.callsFrom now k).filterByTime now ≠ [] := by
      show filterAdsByTime (p.callsFrom now k).ads now ≠ []
      rw [Playlist.callsFrom_ads]
      exact h
    rw [Playlist.getNextAd_of_ne _ now hads]
    simp [ih]
    omega

theorem adLE_iff (x y : Ad) :
    adLE x y ↔
      (y.priority < x.priority ∨
       (x.priority = y.priority ∧ goStringLt y.id x.id = false)) := by
  unfold adLE adBefore
  by_cases hp : y.priority = x.priority
  · rw [if_neg (by simp [hp])]
    constructor
    · intro h
      exact Or.inr ⟨hp.symm, by simpa using h⟩
    · rintro (h | ⟨-, h⟩)
      · omega
      · simp [h]
  · rw [if_pos hp]
    simp only [decide_eq_true_eq]
    constructor
    · intro h
      left
      omega
    · rintro (h | ⟨h, -⟩)
      · omega
      · exact absurd h.symm hp

/-! ## Claim theorems -/

/-- C7: FilterByTime keeps an ad exactly when the current instant respects
both optional window bounds: the ad is kept iff it is in the playlist and
(start absent or now at or after start) and (end absent or now at or before
end); in particular an ad with both bounds absent is always kept, and one
with start absent but end before now is dropped. -/
theorem c7_filterByTime_window (p : Playlist) (now : Int) (a : Ad) :
    a ∈ p.filterByTime now ↔
      a ∈ p.ads ∧
      ((a.startTime = none ∨ ∃ s, a.startTime = some s ∧ s ≤ now) ∧
       (a.endTime = none ∨ ∃ e, a.endTime = some e ∧ now ≤ e)) := by
  show a ∈ filterAdsByTime p.ads now ↔ _
  unfold filterAdsByTime
  rw [List.mem_filter, adTimeOK_iff]

/-- Intended behaviour of the GetNextAd body with the locks erased: with
the clock fixed at one instant and no manifest update, repeated calls to
the body walk cyclically through the priority-sorted time-filtered list.
The real method never exhibits this behaviour: it deadlocks before the body
runs (see the C1 theorem below). -/
theorem getNextAd_round_robin_unlocked (p : Playlist) (now : Int) (k : Nat) :
    ((sortByPriority (p.filterByTime now)).Perm (p.filterByTime now) ∧
     List.Sorted
       (fun x y => x.priority > y.priority ∨
         (x.priority = y.priority ∧ goStringLt y.id x.id = false))
       (sortByPriority (p.filterByTime now))) ∧
    (p.filterByTime now = [] →
      p.callsFrom now k = p ∧ (p.callsFrom now k).getNextAd now = (none, p)) ∧
    (p.filterByTime now ≠ [] →
      ((p.callsFrom now k).getNextAd now).1 =
        (sortByPriority (p.filterByTime now))[(p.currentIdx + k) %
          (sortByPriority (p.filterByTime now)).length]? ∧
      ((p.callsFrom now k).getNextAd now).2.currentIdx =
        p.currentIdx + k + 1) := by
  refine ⟨⟨List.perm_insertionSort adLE _, ?_⟩, ?_, ?_⟩
  · exact List.Pairwise.imp (fun h => (adLE_iff _ _).1 h)
      (List.sorted_insertionSort adLE _)
  · intro h
    refine ⟨Playlist.callsFrom_of_empty p now h k, ?_⟩
    rw [Playlist.callsFrom_of_empty p now h k]
    exact Playlist.getNextAd_of_empty p now h
  · intro h
    have hads : (p.callsFrom now k).filterByTime now = p.filterByTime now := by
      show filterAdsByTime (p.callsFrom now k).ads now = filterAdsByTime p.ads now
      rw [Playlist.callsFrom_ads]
    have hne : (p.callsFrom now k).filterByTime now ≠ [] := by
      rw [hads]; exact h
    rw [Playlist.getNextAd_of_ne _ now hne]
    constructor
    · simp only [hads, Playlist.callsFrom_idx p now h k]
    · simp only [Playlist.callsFrom_idx p now h k]

/-- C1: the claim is false of the program because of a self-deadlock in the
code.  Playlist.GetNextAd write-locks p.mu and then calls FilterByTime,
which read-locks the same non-reentrant sync.RWMutex while the write lock
is still held by the calling goroutine; that RLock blocks forever, so every
call to GetNextAd — on any playlist, at any instant, starting with the
mutex free — never returns, and in particular never returns the element at
cursor mod length that the claim describes.  The second conjunct isolates
the blocking step: RLock on a writer-held mutex does not proceed. -/
theorem c1_getNextAd_deadlock :
    (∀ (p : Playlist) (now : Int), p.getNextAdMu now = none) ∧
      muRLock MuState.wlocked = none :=
  ⟨fun _ _ => rfl, rfl⟩

/-- C6 counterexample: at duration 10^10 seconds the nanosecond conversion
wraps the signed 64-bit range; the code clamps the wrapped negative value up
to the 5 second minimum while the specification formula clamps the positive
duration down to the 300 second maximum. -/
theorem c6_counterexample :
    (newScheduler 30 1).getAdDuration { id := "ad-big", duration := 10000000000 }
        = 5 * second ∧
    specDurationFor (newScheduler 30 1) { id := "ad-big", duration := 10000000000 }
        = 300 * second ∧
    (5 * second : Int) ≠ 300 * second :=
  ⟨by decide, by decide, by decide⟩

/-- C6 amended: the duration is always clamped into 5 s .. 300 s and equals
the stated ad duration whenever that lies in 5 .. 300 seconds; the full
specification formula (positive duration else default, then clamp) holds
whenever the nanosecond conversion of the ad duration does not overflow the
signed 64-bit range (ad.duration at most 9223372036 seconds). -/
theorem c6_getAdDuration_clamped (dds tds : Int) (ad : Ad) :
    (5 * second ≤ (newScheduler dds tds).getAdDuration ad ∧
     (newScheduler dds tds).getAdDuration ad ≤ 300 * second) ∧
    (5 ≤ ad.duration → ad.duration ≤ 300 →
      (newScheduler dds tds).getAdDuration ad = ad.duration * second) ∧
    (ad.duration * second < 2 ^ 63 →
      (newScheduler dds tds).getAdDuration ad =
        specDurationFor (newScheduler dds tds) ad) := by
  refine ⟨?_, ?_, ?_⟩
  · unfold Scheduler.getAdDuration newScheduler
    simp only [second]
    split_ifs <;> omega
  · intro h5 h300
    have hpos : ad.duration > 0 := by omega
    have hw : int64Wrap (ad.duration * second) = ad.duration * second := by
      apply int64Wrap_eq_self <;> simp only [second] <;> nlinarith
    unfold Scheduler.getAdDuration newScheduler
    simp only [hpos, if_pos, hw]
    have hlo : ¬ ad.duration * second < 5 * second := by
      simp only [second]; nlinarith
    have hhi : ¬ ad.duration * second > 300 * second := by
      simp only [second]; nlinarith
    simp only [hlo, hhi, if_neg, if_false]
  · intro hov
    by_cases hpos : ad.duration > 0
    · have hw : int64Wrap (ad.duration * second) = ad.duration * second := by
        apply int64Wrap_eq_self
        · simp only [second]; nlinarith
        · exact hov
      unfold Scheduler.getAdDuration specDurationFor newScheduler
      simp only [hpos, if_pos, hw]
    · unfold Scheduler.getAdDuration specDurationFor newScheduler
      simp only [hpos, if_neg, if_false]

/-- C6 witness: a 42 second ad on the player scheduler keeps its duration,
stays in range, and matches the specification formula. -/
theorem c6_witness :
    (5 ≤ (42 : Int) ∧ (42 : Int) ≤ 300 ∧
      (42 : Int) * second < 2 ^ 63) ∧
    ((newScheduler 30 1).getAdDuration { id := "x", duration := 42 }
        = 42 * second ∧
     (newScheduler 30 1).getAdDuration { id := "x", duration := 42 } =
       specDurationFor (newScheduler 30 1) { id := "x", duration := 42 }) :=
  ⟨⟨by decide, by decide, by decide⟩,
   (c6_getAdDuration_clamped 30 1 { id := "x", duration := 42 }).2.1
     (by decide) (by decide),
   (c6_getAdDuration_clamped 30 1 { id := "x", duration := 42 }).2.2
     (by decide)⟩

/-! ### C4: client retry policy -/

theorem doRequest_first_response (results : Nat → AttemptOutcome) (st : Nat)
    (maxRetries : Nat) (retryDelay : Int) (h : results 0 = .response st) :
    Client.doRequest results maxRetries retryDelay =
      { result := .ok st, sleeps := [], attempts := 1 } := by
  unfold Client.doRequest doRequestLoop
  simp [h]

theorem doRequest_all_fail (results : Nat → AttemptOutcome) (e : String)
    (h : ∀ i, i ≤ 3 → results i = .failure e) :
    (Client.doRequest results 3 (2 * second)).attempts = 4 ∧
    (Client.doRequest results 3 (2 * second)).sleeps =
      [2 * second * 1, 2 * second * 2, 2 * second * 3] ∧
    ∃ msg, (Client.doRequest results 3 (2 * second)).result = .error msg := by
  have h0 := h 0 (by omega)
  have h1 := h 1 (by omega)
  have h2 := h 2 (by omega)
  have h3 := h 3 (by omega)
  simp [Client.doRequest, doRequestLoop, h0, h1, h2, h3]

/-- C4 counterexample: with the default configuration (retry base delay 5 s),
the specification schedule for the configured values is 5, 10, 15 seconds,
but Connect sleeps the hardcoded 2, 4, 6 seconds; the claim that the delay is
the configured base times the attempt number is false on the first retry. -/
theorem c4_counterexample :
    (Client.connect (fun _ => AttemptOutcome.failure "connection refused")).2.sleeps
        = [2 * second, 4 * second, 6 * second] ∧
    specRetryDelays (defaultConfig.retryDelay * second) defaultConfig.retryAttempts
        = [5 * second, 10 * second, 15 * second] ∧
    (Client.connect (fun _ => AttemptOutcome.failure "connection refused")).2.sleeps
        ≠ specRetryDelays (defaultConfig.retryDelay * second)
            defaultConfig.retryAttempts :=
  ⟨by decide, by decide, by decide⟩

/-- C4 amended: every operation runs through doRequest with the hardcoded
values 3 and 2 seconds rather than the configured ones.  A first-attempt
response ends the call after exactly one attempt with no sleeps, whatever the
status: Connect classifies 401 as an authentication failure and 403 as a
server error, Heartbeat rejects everything outside 200 and 204, GetAds
rejects everything outside 200 and 204, each without further attempts.  When
every attempt fails at the transport layer, each operation performs exactly 4
attempts with sleeps 2 s, 4 s, 6 s and returns the transport failure. -/
theorem c4_retry_policy (results : Nat → AttemptOutcome) (st : Nat) (e : String) :
    (results 0 = .response st →
      ((Client.connect results).2.attempts = 1 ∧
       (Client.connect results).2.sleeps = [] ∧
       (st = 401 → (Client.connect results).1 = .authInvalid) ∧
       (st = 403 → (Client.connect results).1 = .serverError 403) ∧
       ((Client.heartbeat results).2.attempts = 1 ∧
        (st ≠ 200 → st ≠ 204 → (Client.heartbeat results).1 = .failed st)) ∧
       ((Client.getAds results 0).2.attempts = 1 ∧
        (st ≠ 200 → st ≠ 204 → (Client.getAds results 0).1 = .failed st)))) ∧
    ((∀ i, i ≤ 3 → results i = .failure e) →
      ((Client.connect results).2.attempts = 4 ∧
       (Client.connect results).2.sleeps =
         [2 * second * 1, 2 * second * 2, 2 * second * 3] ∧
       (∃ msg, (Client.connect results).1 = .transportFailure msg) ∧
       (∃ msg, (Client.heartbeat results).1 = .transportFailure msg) ∧
       (∃ msg, (Client.getAds results 0).1 = .transportFailure msg))) := by
  constructor
  · intro h
    have hd := doRequest_first_response results st 3 (2 * second) h
    refine ⟨?_, ?_, ?_, ?_, ⟨?_, ?_⟩, ?_, ?_⟩
    · simp only [Client.connect, hd]
      split_ifs <;> rfl
    · simp only [Client.connect, hd]
      split_ifs <;> rfl
    · intro h401
      subst h401
      simp [Client.connect, hd]
    · intro h403
      subst h403
      simp [Client.connect, hd]
    · simp only [Client.heartbeat, hd]
      split_ifs <;> rfl
    · intro hn200 hn204
      simp [Client.heartbeat, hd, hn200, hn204]
    · simp only [Client.getAds, hd]
      split_ifs <;> rfl
    · intro hn200 hn204
      simp [Client.getAds, hd, hn200, hn204]
  · intro h
    obtain ⟨ha, hs, msg, hm⟩ := doRequest_all_fail results e h
    refine ⟨?_, ?_, ⟨msg, ?_⟩, ⟨msg, ?_⟩, ⟨msg, ?_⟩⟩
    · simp only [Client.connect, hm]
      exact ha
    · simp only [Client.connect, hm]
      exact hs
    · simp only [Client.connect, hm]
    · simp only [Client.heartbeat, hm]
    · simp only [Client.getAds, hm]

/-- C4 witness: a 401 on the first attempt ends Connect at once as an
authentication failure; an always-failing transport makes Connect perform 4
attempts with the 2, 4, 6 second sleeps. -/
theorem c4_witness :
    ((Client.connect (fun _ => AttemptOutcome.response 401)).2.attempts = 1 ∧
     (Client.connect (fun _ => AttemptOutcome.response 401)).1 =
       ConnectOutcome.authInvalid) ∧
    ((Client.connect (fun _ => AttemptOutcome.failure "refused")).2.attempts = 4 ∧
     (Client.connect (fun _ => AttemptOutcome.failure "refused")).2.sleeps =
       [2 * second * 1, 2 * second * 2, 2 * second * 3]) :=
  ⟨⟨((c4_retry_policy (fun _ => AttemptOutcome.response 401) 401 "").1 rfl).1,
    ((c4_retry_policy (fun _ => AttemptOutcome.response 401) 401 "").1 rfl).2.2.1
      rfl⟩,
   ⟨((c4_retry_policy (fun _ => AttemptOutcome.failure "refused") 0 "refused").2
      (fun i _ => rfl)).1,
    ((c4_retry_policy (fun _ => AttemptOutcome.failure "refused") 0 "refused").2
      (fun i _ => rfl)).2.1⟩⟩

/-! ### C3: manifest write atomicity -/

theorem marshalAdsMetadata_getLast (m : AdsMetadata) :
    (marshalAdsMetadata m).getLast? = some 125 := by
  unfold marshalAdsMetadata
  rw [List.getLast?_append_of_ne_nil _ (by simp)]
  rfl

/-- C3 counterexample: SaveAds performs no rename at all and writes the
serialized wrapper directly to the manifest path, so the atomic
write-to-temporary-and-rename discipline the claim describes is absent, and a
mid-write state of the manifest file (here its first byte, an opening brace)
is not a complete serialized record. -/
theorem c3_counterexample :
    (¬ specAtomicReplace
        ((newAdsStorage "/root/.mnemocast").saveAdsOps
          { ads := [], playlistID := "", updatedAt := 0 } 0)
        (newAdsStorage "/root/.mnemocast").adsFile) ∧
    (∃ c, midWriteContents
        ((newAdsStorage "/root/.mnemocast").saveAdsOps
          { ads := [], playlistID := "", updatedAt := 0 } 0)
        (newAdsStorage "/root/.mnemocast").adsFile c ∧
      ¬ IsCompleteRecord c) := by
  constructor
  · rintro ⟨⟨tmp, data, perm, hne, hw, hr⟩, -⟩
    simp [AdsStorage.saveAdsOps, newAdsStorage] at hr
  · refine ⟨[123], ⟨marshalAdsMetadata
      { fetchedAt := 0, playlistID := "", updatedAt := 0, ads := [],
        adsCount := 0 }, 384, 1, ?_, ?_, ?_⟩, ?_⟩
    · simp [AdsStorage.saveAdsOps, newAdsStorage]
    · decide
    · decide
    · rintro ⟨m, hm⟩
      have h1 := marshalAdsMetadata_getLast m
      rw [hm] at h1
      simp at h1

/-- C3 amended: SaveAds ensures the two directories and then performs one
direct WriteFile of the serialized wrapper to the manifest path with mode
0600; no temporary file and no rename are involved. -/
theorem c3_saveAds_direct_write (root : String) (resp : AdDeliveryResponse)
    (now : Int) :
    (newAdsStorage root).saveAdsOps resp now =
      [ FsOp.mkdirAll (root ++ "/ads") 493,
        FsOp.mkdirAll (root ++ "/ads/media") 493,
        FsOp.writeFile (root ++ "/ads/current_ads.json")
          (marshalAdsMetadata
            { fetchedAt := now
              playlistID := resp.playlistID
              updatedAt := resp.updatedAt
              ads := resp.ads
              adsCount := resp.ads.length }) 384 ] ∧
    ∀ op ∈ (newAdsStorage root).saveAdsOps resp now, op.isRename = false := by
  constructor
  · rfl
  · intro op hop
    simp [AdsStorage.saveAdsOps, newAdsStorage] at hop
    rcases hop with rfl | rfl | rfl <;> rfl

/-- C3 witness: the concrete effect list for an empty manifest contains the
direct write and nothing is a rename. -/
theorem c3_witness :
    (FsOp.mkdirAll "/r/ads" 493 ∈
      (newAdsStorage "/r").saveAdsOps { ads := [], playlistID := "p", updatedAt := 7 } 3) ∧
    (FsOp.mkdirAll "/r/ads" 493).isRename = false :=
  ⟨by decide,
   (c3_saveAds_direct_write "/r" { ads := [], playlistID := "p", updatedAt := 7 }
      3).2 (FsOp.mkdirAll "/r/ads" 493) (by decide)⟩

/-! ### C5: downloader postcondition -/

theorem getLocalPath_spec (st : AdsStorage) (fs : FileSys) (ad : Ad)
    (p : String) (h : getLocalPath st fs ad = some p) :
    ∃ n, fs p = some n ∧ 0 < n := by
  rcases hfs : fs (st.getAdMediaPath ad.id
      (ad.id ++ getFileExtension ad.contentURL ad.type)) with _ | n
  · simp [getLocalPath, hfs] at h
  · by_cases hn : n > 0
    · simp only [getLocalPath, hfs, if_pos hn, Option.some.injEq] at h
      subst h
      exact ⟨n, hfs, hn⟩
    · simp [getLocalPath, hfs, hn] at h

theorem downloadLoop_postcondition (oracle : Nat → DownloadAttempt)
    (maxRetries : Nat) (localPath : String) :
    ∀ (remaining attempt : Nat) (fs : FileSys) (lastErr : String) (p : String),
      (downloadLoop oracle maxRetries localPath remaining attempt fs lastErr).result
          = .ok p →
      ∃ n, (downloadLoop oracle maxRetries localPath remaining attempt fs
          lastErr).fs p = some n ∧ 0 < n := by
  intro remaining
  induction remaining with
  | zero =>
    intro attempt fs lastErr p h
    simp [downloadLoop] at h
  | succ remaining ih =>
    intro attempt fs lastErr p h
    rcases horacle : oracle attempt with e | n
    · simp only [downloadLoop, horacle] at h ⊢
      exact ih (attempt + 1) fs e p h
    · by_cases hn : n > 0
      · simp only [downloadLoop, horacle, if_pos hn, Except.ok.injEq] at h ⊢
        subst h
        exact ⟨n, by simp, hn⟩
      · simp only [downloadLoop, horacle, if_neg hn] at h ⊢
        exact ih (attempt + 1) _ _ p h

/-- C5 counterexample: for an ad with a file scheme URL referring to an
existing but empty file, DownloadAdMedia succeeds and returns that path even
though the file there has size zero, contradicting the claimed non-zero-size
postcondition (and its present-and-non-empty reading of the file branch). -/
theorem c5_counterexample :
    (downloadAdMedia (newAdsStorage "/root/.mnemocast")
        (fun p => if p = "/tmp/empty.bin" then some 0 else none)
        (fun _ => DownloadAttempt.fail "unreachable") 3
        { id := "ad-1", type := "video",
          contentURL := "file:///tmp/empty.bin" }).result
      = Except.ok "/tmp/empty.bin" ∧
    (downloadAdMedia (newAdsStorage "/root/.mnemocast")
        (fun p => if p = "/tmp/empty.bin" then some 0 else none)
        (fun _ => DownloadAttempt.fail "unreachable") 3
        { id := "ad-1", type := "video",
          contentURL := "file:///tmp/empty.bin" }).fs "/tmp/empty.bin"
      = some 0 :=
  ⟨by decide, by decide⟩

/-- C5 amended: whenever DownloadAdMedia succeeds, the returned path holds a
file in the resulting file system, and its size is non-zero except possibly
on the file scheme branch, where bare existence suffices. -/
theorem c5_download_postcondition (st : AdsStorage) (fs : FileSys)
    (oracle : Nat → DownloadAttempt) (maxRetries : Nat) (ad : Ad) (p : String)
    (h : (downloadAdMedia st fs oracle maxRetries ad).result = .ok p) :
    ∃ n, (downloadAdMedia st fs oracle maxRetries ad).fs p = some n ∧
      (0 < n ∨ goHasPrefix ad.contentURL "file://" = true) := by
  unfold downloadAdMedia at h ⊢
  rcases hc : getLocalPath st fs ad with _ | lp
  · by_cases hf : goHasPrefix ad.contentURL "file://" = true
    · by_cases he : (fs (goTrimPrefix ad.contentURL "file://")).isSome = true
      · simp only [hc, hf, he, if_true, Except.ok.injEq] at h ⊢
        subst h
        rcases hfs : fs (goTrimPrefix ad.contentURL "file://") with _ | n
        · rw [hfs] at he
          simp at he
        · exact ⟨n, rfl, Or.inr (by simp)⟩
      · simp [hc, hf, he] at h
    · simp only [hc, hf, Bool.false_eq_true, if_false] at h ⊢
      obtain ⟨n, hn, hpos⟩ := downloadLoop_postcondition oracle maxRetries _
        (maxRetries + 1) 0 fs "" p h
      exact ⟨n, hn, Or.inl hpos⟩
  · simp only [hc, Except.ok.injEq] at h ⊢
    subst h
    obtain ⟨n, hn, hpos⟩ := getLocalPath_spec st fs ad _ hc
    exact ⟨n, hn, Or.inl hpos⟩

/-- C5 witness: a file scheme ad whose referenced file holds three bytes. -/
theorem c5_witness :
    ((downloadAdMedia (newAdsStorage "/r")
        (fun p => if p = "/tmp/a.bin" then some 3 else none)
        (fun _ => DownloadAttempt.fail "unreachable") 3
        { id := "ad-2", type := "video",
          contentURL := "file:///tmp/a.bin" }).result = Except.ok "/tmp/a.bin") ∧
    ∃ n, (downloadAdMedia (newAdsStorage "/r")
        (fun p => if p = "/tmp/a.bin" then some 3 else none)
        (fun _ => DownloadAttempt.fail "unreachable") 3
        { id := "ad-2", type := "video",
          contentURL := "file:///tmp/a.bin" }).fs "/tmp/a.bin" = some n ∧
      (0 < n ∨ goHasPrefix "file:///tmp/a.bin" "file://" = true) :=
  ⟨by decide,
   c5_download_postcondition (newAdsStorage "/r")
     (fun p => if p = "/tmp/a.bin" then some 3 else none)
     (fun _ => DownloadAttempt.fail "unreachable") 3
     { id := "ad-2", type := "video", contentURL := "file:///tmp/a.bin" }
     "/tmp/a.bin" (by decide)⟩

/-! ### C2: current-ad versus player state -/

theorem Player.loadNextAd_state_ne_stopped (p : Player) (now : Int)
    (media : MediaOutcome) (rOk : Bool) (rErr : String) :
    (p.loadNextAd now media rOk rErr).state ≠ PlayerState.stopped := by
  unfold Player.loadNextAd
  dsimp only
  split <;> (try split) <;> (try split) <;> simp

theorem Player.applyOp_stopped_clear (p : Player) (op : POp)
    (hp : p.state = PlayerState.stopped → p.currentAd = none) :
    (p.applyOp op).state = PlayerState.stopped →
      (p.applyOp op).currentAd = none := by
  cases op with
  | start loaded now =>
    simp only [Player.applyOp]
    unfold Player.start
    by_cases h : p.state = PlayerState.playing
    · rw [if_pos h]
      exact hp
    · rw [if_neg h]
      intro hs
      simp at hs
  | stop =>
    simp only [Player.applyOp]
    unfold Player.stop
    by_cases h : p.state = PlayerState.stopped
    · rw [if_pos h]
      exact hp
    · rw [if_neg h]
      intro _
      rfl
  | pause =>
    simp only [Player.applyOp]
    unfold Player.pause
    by_cases h : p.state ≠ PlayerState.playing
    · rw [if_pos h]
      exact hp
    · rw [if_neg h]
      intro hs
      simp at hs
  | resume =>
    simp only [Player.applyOp]
    unfold Player.resume
    by_cases h : p.state ≠ PlayerState.paused
    · rw [if_pos h]
      exact hp
    · rw [if_neg h]
      intro hs
      simp at hs
  | updateAds resp now =>
    simp only [Player.applyOp]
    unfold Player.updateAds
    exact hp
  | tick now st media rOk rErr =>
    simp only [Player.applyOp]
    unfold Player.tick
    by_cases h : p.state ≠ PlayerState.playing
    · rw [if_pos h]
      exact hp
    · rw [if_neg h]
      by_cases h2 : (p.currentAd.isSome && !st) = true
      · rw [if_pos h2]
        exact hp
      · rw [if_neg h2]
        intro hs
        exact absurd hs (Player.loadNextAd_state_ne_stopped p now media rOk rErr)

theorem Player.runOps_stopped_clear (ops : List POp) :
    ∀ p : Player, (p.state = PlayerState.stopped → p.currentAd = none) →
      ((p.runOps ops).state = PlayerState.stopped →
        (p.runOps ops).currentAd = none) := by
  induction ops with
  | nil => intro p hp; exact hp
  | cons op ops ih =>
    intro p hp
    exact ih (p.applyOp op) (Player.applyOp_stopped_clear p op hp)

/-- C2 counterexample: starting the fresh player (with no stored manifest)
reaches a state that is playing with a nil current ad, so the claimed
biconditional between a non-nil current ad and the loading, playing or paused
states is false of the code. -/
theorem c2_counterexample :
    PlayerReachable (newPlayer.applyOp (POp.start none 0)) ∧
    (newPlayer.applyOp (POp.start none 0)).state = PlayerState.playing ∧
    (newPlayer.applyOp (POp.start none 0)).currentAd = none ∧
    ¬ ((newPlayer.applyOp (POp.start none 0)).currentAd ≠ none ↔
       ((newPlayer.applyOp (POp.start none 0)).state = PlayerState.loading ∨
        (newPlayer.applyOp (POp.start none 0)).state = PlayerState.playing ∨
        (newPlayer.applyOp (POp.start none 0)).state = PlayerState.paused)) :=
  ⟨⟨[POp.start none 0], rfl⟩, by decide, by decide, by decide⟩

/-- C2 amended: in every reachable player state, a stopped player has no
current ad; equivalently a non-nil current ad implies the state is loading,
playing, paused or error.  The converse directions fail: playing with a nil
current ad is reachable right after Start, and the error state keeps the
previous current ad after a render failure. -/
theorem c2_currentAd_states (p : Player) (h : PlayerReachable p) :
    (p.state = PlayerState.stopped → p.currentAd = none) ∧
    (p.currentAd ≠ none →
      (p.state = PlayerState.loading ∨ p.state = PlayerState.playing ∨
       p.state = PlayerState.paused ∨ p.state = PlayerState.error)) := by
  obtain ⟨ops, rfl⟩ := h
  have hinv := Player.runOps_stopped_clear ops newPlayer (fun _ => rfl)
  refine ⟨hinv, ?_⟩
  intro had
  cases hst : (newPlayer.runOps ops).state with
  | stopped => exact absurd (hinv hst) had
  | playing => exact Or.inr (Or.inl rfl)
  | paused => exact Or.inr (Or.inr (Or.inl rfl))
  | loading => exact Or.inl rfl
  | error => exact Or.inr (Or.inr (Or.inr rfl))

/-- C2 witness: the fresh player is reachable and satisfies the amended
invariant. -/
theorem c2_witness :
    (newPlayer.state = PlayerState.stopped → newPlayer.currentAd = none) ∧
    (newPlayer.currentAd ≠ none →
      (newPlayer.state = PlayerState.loading ∨
       newPlayer.state = PlayerState.playing ∨
       newPlayer.state = PlayerState.paused ∨
       newPlayer.state = PlayerState.error)) :=
  c2_currentAd_states newPlayer ⟨[], rfl⟩

/-! ### C9: the heartbeat loop survives failed heartbeats -/

theorem sendHeartbeatLoop_allfail (oracle : Nat → Option String) (now : Int)
    (s : HBState) :
    ∀ (remaining attempt : Nat) (lastErr : Option String),
      (∀ i, attempt ≤ i → i < attempt + remaining → (oracle i).isSome) →
      (remaining = 0 → lastErr.isSome) →
      ((sendHeartbeatLoop oracle now s remaining attempt lastErr).status =
          HBStatus.error ∧
       (sendHeartbeatLoop oracle now s remaining attempt lastErr).lastError.isSome)
    := by
  intro remaining
  induction remaining with
  | zero =>
    intro attempt lastErr _ hlast
    exact ⟨rfl, hlast rfl⟩
  | succ remaining ih =>
    intro attempt lastErr hfail _
    have h0 : (oracle attempt).isSome := hfail attempt (by omega) (by omega)
    rcases ho : oracle attempt with _ | e
    · rw [ho] at h0
      simp at h0
    · simp only [sendHeartbeatLoop, ho]
      exact ih (attempt + 1) (some e)
        (fun i h1 h2 => hfail i (by omega) (by omega))
        (fun _ => rfl)

/-- C9: a heartbeat cycle whose every attempt fails sets the shared status to
error with the error recorded, and the loop is unaffected: processing a tick
is just a state update followed by the rest of the events, and the loop exits
exactly when a cancellation event is reached. -/
theorem c9_heartbeat_loop_survives (ra : Nat) (s : HBState)
    (oracle : Nat → Option String) (now : Int) (evs : List HBEvent) :
    ((∀ i, i ≤ ra → (oracle i).isSome) →
      ((sendHeartbeat s oracle ra now).status = HBStatus.error ∧
       (sendHeartbeat s oracle ra now).lastError.isSome)) ∧
    (runHeartbeatLoop ra s (HBEvent.tick oracle now :: evs) =
      runHeartbeatLoop ra (sendHeartbeat s oracle ra now) evs) ∧
    ((runHeartbeatLoop ra s evs).2 = true ↔ evs.any HBEvent.isCancel) := by
  refine ⟨?_, rfl, ?_⟩
  · intro h
    exact sendHeartbeatLoop_allfail oracle now s (ra + 1) 0 none
      (fun i h1 h2 => h i (by omega)) (by omega)
  · clear now oracle
    induction evs generalizing s with
    | nil => simp [runHeartbeatLoop]
    | cons ev rest ih =>
      cases ev with
      | cancel => simp [runHeartbeatLoop, HBEvent.isCancel]
      | tick oracle now =>
        simp only [runHeartbeatLoop, List.any_cons, HBEvent.isCancel,
          Bool.false_or]
        exact ih (sendHeartbeat s oracle ra now)

/-- C9 witness: with one retry allowed and a connection always refused, the
cycle ends in error with the error recorded. -/
theorem c9_witness :
    (sendHeartbeat {} (fun _ => some "connection refused") 1 0).status =
        HBStatus.error ∧
    (sendHeartbeat {} (fun _ => some "connection refused") 1 0).lastError.isSome
    :=
  (c9_heartbeat_loop_survives 1 {} (fun _ => some "connection refused") 0 []).1
    (fun i _ => rfl)

/-! ### C8 and C10: the credentials vault -/

theorem sha256_length (msg : List Nat) : (sha256 msg).length = 32 := by
  simp [sha256, be4]

theorem b64Val_b64Char : ∀ v, v < 64 → b64Val (b64Char v) = some v := by decide

theorem b64Char_ne_pad : ∀ v, v < 64 → b64Char v ≠ '=' := by decide

theorem b64EncodeGo_ne_nil (l : List Nat) (h : l ≠ []) : b64EncodeGo l ≠ [] := by
  rcases l with _ | ⟨b1, _ | ⟨b2, _ | ⟨b3, rest⟩⟩⟩
  · exact absurd rfl h
  · simp [b64EncodeGo]
  · simp [b64EncodeGo]
  · simp [b64EncodeGo]

theorem b64_roundtrip :
    ∀ l : List Nat, (∀ b ∈ l, b < 256) → b64DecodeGo (b64EncodeGo l) = .ok l := by
  intro l
  induction l using b64EncodeGo.induct with
  | case1 =>
    intro _
    rfl
  | case2 b1 =>
    intro h
    have hb1 : b1 < 256 := h b1 (by simp)
    have e1 : b64Val (b64Char (b1 / 4)) = some (b1 / 4) :=
      b64Val_b64Char _ (by omega)
    have e2 : b64Val (b64Char (b1 % 4 * 16)) = some (b1 % 4 * 16) :=
      b64Val_b64Char _ (by omega)
    simp [b64EncodeGo, b64DecodeGo, e1, e2]
    omega
  | case3 b1 b2 =>
    intro h
    have hb1 : b1 < 256 := h b1 (by simp)
    have hb2 : b2 < 256 := h b2 (by simp)
    have e1 : b64Val (b64Char (b1 / 4)) = some (b1 / 4) :=
      b64Val_b64Char _ (by omega)
    have e2 : b64Val (b64Char (b1 % 4 * 16 + b2 / 16)) =
        some (b1 % 4 * 16 + b2 / 16) := b64Val_b64Char _ (by omega)
    have e3 : b64Val (b64Char (b2 % 16 * 4)) = some (b2 % 16 * 4) :=
      b64Val_b64Char _ (by omega)
    have ne3 : b64Char (b2 % 16 * 4) ≠ '=' :=
      b64Char_ne_pad _ (by omega)
    simp [b64EncodeGo, b64DecodeGo, e1, e2, e3, ne3]
    omega
  | case4 b1 b2 b3 rest ih =>
    intro h
    have hb1 : b1 < 256 := h b1 (by simp)
    have hb2 : b2 < 256 := h b2 (by simp)
    have hb3 : b3 < 256 := h b3 (by simp)
    have hrest : ∀ b ∈ rest, b < 256 := fun b hb => h b (by simp [hb])
    have e1 : b64Val (b64Char (b1 / 4)) = some (b1 / 4) :=
      b64Val_b64Char _ (by omega)
    have e2 : b64Val (b64Char (b1 % 4 * 16 + b2 / 16)) =
        some (b1 % 4 * 16 + b2 / 16) := b64Val_b64Char _ (by omega)
    have e3 : b64Val (b64Char (b2 % 16 * 4 + b3 / 64)) =
        some (b2 % 16 * 4 + b3 / 64) := b64Val_b64Char _ (by omega)
    have e4 : b64Val (b64Char (b3 % 64)) = some (b3 % 64) :=
      b64Val_b64Char _ (by omega)
    have ne3 : b64Char (b2 % 16 * 4 + b3 / 64) ≠ '=' :=
      b64Char_ne_pad _ (by omega)
    have ne4 : b64Char (b3 % 64) ≠ '=' := b64Char_ne_pad _ (by omega)
    simp [b64EncodeGo, b64DecodeGo, e1, e2, e3, e4, ne3, ne4, ih hrest]
    omega

theorem gcmKeystream_length (E : BlockFn) (nonce : List Nat) (n : Nat) :
    (gcmKeystream E nonce n).length = n := by
  simp [gcmKeystream]

theorem xorBytes_length (a b : List Nat) :
    (xorBytes a b).length = min a.length b.length := by
  simp [xorBytes]

theorem xorBytes_xorBytes (pt : List Nat) :
    ∀ ks : List Nat, pt.length ≤ ks.length →
      xorBytes (xorBytes pt ks) ks = pt := by
  induction pt with
  | nil => intro ks _; rfl
  | cons x xs ih =>
    intro ks h
    cases ks with
    | nil => simp at h
    | cons k kt =>
      simp only [xorBytes, List.zipWith_cons_cons, List.cons.injEq]
      exact ⟨Nat.xor_cancel_right k x, ih kt (by simpa using h)⟩

theorem padTo16_length (l : List Nat) : (padTo16 l).length = 16 := by
  simp [padTo16]

theorem gcmOpen_gcmSeal (E : BlockFn) (nonce pt : List Nat) :
    gcmOpen E nonce (gcmSeal E nonce pt) = .ok pt := by
  unfold gcmSeal gcmOpen
  have hctlen : (xorBytes pt (gcmKeystream E nonce pt.length)).length =
      pt.length := by
    rw [xorBytes_length, gcmKeystream_length]
    omega
  have htag := padTo16_length (E (ctrBlock nonce 1 ++
    xorBytes pt (gcmKeystream E nonce pt.length)))
  rw [if_neg (by simp only [List.length_append, hctlen, gcmTag, htag, gcmTagSize]; omega)]
  have hsub : (xorBytes pt (gcmKeystream E nonce pt.length) ++
      gcmTag E nonce (xorBytes pt (gcmKeystream E nonce pt.length))).length -
        gcmTagSize =
      (xorBytes pt (gcmKeystream E nonce pt.length)).length := by
    simp only [List.length_append, gcmTag, htag, gcmTagSize]
    omega
  rw [hsub, List.take_left, List.drop_left, if_pos rfl, hctlen,
    xorBytes_xorBytes pt _ (by rw [gcmKeystream_length])]

theorem Decrypt_Encrypt (aes : List Nat → BlockFn) (nonce data key : List Nat)
    (hn : nonce.length = gcmNonceSize) (res : List Nat)
    (h : Encrypt aes nonce data key = .ok res) :
    Decrypt aes res key = .ok data := by
  unfold Encrypt at h
  rw [if_pos (sha256_length key)] at h
  rw [Except.ok.injEq] at h
  subst h
  unfold Decrypt
  rw [if_pos (sha256_length key)]
  have hlen : (nonce ++ gcmSeal (aes (sha256 key)) nonce data).length =
      gcmNonceSize + (data.length + 16) := by
    simp only [List.length_append, gcmSeal, gcmTag, xorBytes_length,
      gcmKeystream_length, padTo16_length, hn]
    omega
  rw [if_neg (by omega)]
  have ht : (nonce ++ gcmSeal (aes (sha256 key)) nonce data).take gcmNonceSize
      = nonce := by
    rw [← hn, List.take_left]
  have hd : (nonce ++ gcmSeal (aes (sha256 key)) nonce data).drop gcmNonceSize
      = gcmSeal (aes (sha256 key)) nonce data := by
    rw [← hn, List.drop_left]
  rw [ht, hd]
  simp only [gcmOpen_gcmSeal]

theorem hexVal_hexDigitByte : ∀ d, d < 16 → hexVal (hexDigitByte d) = some d := by
  decide

theorem parse_quote (rest : List Nat) :
    parseJSONStringBody (34 :: rest) = some ([], rest) := by
  conv_lhs => rw [parseJSONStringBody.eq_def]
  simp

theorem parse_esc_quote (rest : List Nat) :
    parseJSONStringBody (92 :: 34 :: rest) =
      (parseJSONStringBody rest).map (fun r => (34 :: r.1, r.2)) := by
  conv_lhs => rw [parseJSONStringBody.eq_def]
  simp

theorem parse_esc_backslash (rest : List Nat) :
    parseJSONStringBody (92 :: 92 :: rest) =
      (parseJSONStringBody rest).map (fun r => (92 :: r.1, r.2)) := by
  conv_lhs => rw [parseJSONStringBody.eq_def]
  simp

theorem parse_esc_n (rest : List Nat) :
    parseJSONStringBody (92 :: 110 :: rest) =
      (parseJSONStringBody rest).map (fun r => (10 :: r.1, r.2)) := by
  conv_lhs => rw [parseJSONStringBody.eq_def]
  simp

theorem parse_esc_r (rest : List Nat) :
    parseJSONStringBody (92 :: 114 :: rest) =
      (parseJSONStringBody rest).map (fun r => (13 :: r.1, r.2)) := by
  conv_lhs => rw [parseJSONStringBody.eq_def]
  simp

theorem parse_esc_t (rest : List Nat) :
    parseJSONStringBody (92 :: 116 :: rest) =
      (parseJSONStringBody rest).map (fun r => (9 :: r.1, r.2)) := by
  conv_lhs => rw [parseJSONStringBody.eq_def]
  simp

theorem parse_esc_u (h1 h2 h3 h4 : Nat) (rest : List Nat) :
    parseJSONStringBody (92 :: 117 :: h1 :: h2 :: h3 :: h4 :: rest) =
      (match hexVal h1, hexVal h2, hexVal h3, hexVal h4 with
       | some a, some b2, some c, some d =>
         let v := ((a * 16 + b2) * 16 + c) * 16 + d
         if v < 256 then
           (parseJSONStringBody rest).map (fun r => (v :: r.1, r.2))
         else none
       | _, _, _, _ => none) := by
  conv_lhs => rw [parseJSONStringBody.eq_def]
  simp

theorem parse_other (b : Nat) (rest : List Nat) (hb34 : b ≠ 34)
    (hb92 : b ≠ 92) :
    parseJSONStringBody (b :: rest) =
      (parseJSONStringBody rest).map (fun r => (b :: r.1, r.2)) := by
  conv_lhs => rw [parseJSONStringBody.eq_def]
  simp [hb34, hb92]

theorem parse_escape :
    ∀ (s : List Nat), (∀ b ∈ s, b < 256) → ∀ rest : List Nat,
      parseJSONStringBody (jsonEscape s ++ 34 :: rest) = some (s, rest) := by
  intro s
  induction s with
  | nil =>
    intro _ rest
    simp only [jsonEscape, List.flatMap_nil, List.nil_append, parse_quote]
  | cons b s ih =>
    intro h rest
    have hb : b < 256 := h b (by simp)
    have hs : ∀ x ∈ s, x < 256 := fun x hx => h x (by simp [hx])
    have ihr := ih hs rest
    simp only [jsonEscape] at ihr ⊢
    rw [List.flatMap_cons]
    by_cases h34 : b = 34
    · subst h34
      rw [show jsonEscapeByte 34 = [92, 34] from by decide]
      simp [parse_esc_quote, ihr]
    · by_cases h92 : b = 92
      · subst h92
        rw [show jsonEscapeByte 92 = [92, 92] from by decide]
        simp [parse_esc_backslash, ihr]
      · by_cases h10 : b = 10
        · subst h10
          rw [show jsonEscapeByte 10 = [92, 110] from by decide]
          simp [parse_esc_n, ihr]
        · by_cases h13 : b = 13
          · subst h13
            rw [show jsonEscapeByte 13 = [92, 114] from by decide]
            simp [parse_esc_r, ihr]
          · by_cases h9 : b = 9
            · subst h9
              rw [show jsonEscapeByte 9 = [92, 116] from by decide]
              simp [parse_esc_t, ihr]
            · by_cases hesc : b < 32 ∨ b = 60 ∨ b = 62 ∨ b = 38
              · have hby : jsonEscapeByte b =
                    [92, 117, 48, 48, hexDigitByte (b / 16),
                     hexDigitByte (b % 16)] := by
                  unfold jsonEscapeByte
                  simp [h34, h92, h10, h13, h9, hesc]
                have e1 : hexVal (hexDigitByte (b / 16)) = some (b / 16) :=
                  hexVal_hexDigitByte _ (by omega)
                have e2 : hexVal (hexDigitByte (b % 16)) = some (b % 16) :=
                  hexVal_hexDigitByte _ (by omega)
                have e48 : hexVal 48 = some 0 := by decide
                have hv : ((0 * 16 + 0) * 16 + b / 16) * 16 + b % 16 = b := by
                  omega
                rw [hby]
                simp only [List.cons_append]
                rw [parse_esc_u]
                simp [e1, e2, e48, hv, hb, ihr]
                omega
              · have hby : jsonEscapeByte b = [b] := by
                  unfold jsonEscapeByte
                  simp [h34, h92, h10, h13, h9, hesc]
                rw [hby]
                simp only [List.cons_append, List.nil_append]
                rw [parse_other b _ h34 h92]
                simp [ihr]

theorem dropLit_append (pat l : List Nat) : dropLit pat (pat ++ l) = some l := by
  unfold dropLit
  rw [if_pos (List.isPrefixOf_iff_prefix.2 (List.prefix_append pat l))]
  rw [List.drop_left]

theorem marshalCredentials_shape (c : Credentials) :
    marshalCredentials c =
      ([123, 34] ++ asciiBytes "screenId" ++ [34, 58, 34]) ++
        (jsonEscape c.screenID ++ 34 ::
          (([44, 34] ++ asciiBytes "passkey" ++ [34, 58, 34]) ++
            (jsonEscape c.passkey ++ 34 :: [125]))) := by
  have hkey1 : jsonEscape (asciiBytes "screenId") = asciiBytes "screenId" := by
    decide
  have hkey2 : jsonEscape (asciiBytes "passkey") = asciiBytes "passkey" := by
    decide
  simp [marshalCredentials, jsonString, hkey1, hkey2]

theorem unmarshal_marshal (c : Credentials)
    (hs : ∀ b ∈ c.screenID, b < 256) (hp : ∀ b ∈ c.passkey, b < 256) :
    unmarshalCredentials (marshalCredentials c) = .ok c := by
  rw [marshalCredentials_shape]
  unfold unmarshalCredentials
  rw [dropLit_append]
  simp only [parse_escape c.screenID hs]
  rw [dropLit_append]
  simp only [parse_escape c.passkey hp]
  simp

theorem getD_lt256 (l : List Nat) (hl : ∀ x ∈ l, x < 256) :
    ∀ i : Nat, l.getD i 0 < 256 := by
  induction l with
  | nil =>
    intro i
    simp [List.getD_nil]
  | cons a t ih =>
    intro i
    cases i with
    | zero =>
      rw [List.getD_cons_zero]
      exact hl a (by simp)
    | succ i =>
      rw [List.getD_cons_succ]
      exact ih (fun x hx => hl x (by simp [hx])) i

theorem gcmKeystream_lt256 (E : BlockFn) (nonce : List Nat) (n : Nat)
    (hE : ∀ block, ∀ x ∈ E block, x < 256) :
    ∀ x ∈ gcmKeystream E nonce n, x < 256 := by
  intro x hx
  simp only [gcmKeystream, List.mem_map, List.mem_range] at hx
  obtain ⟨i, -, rfl⟩ := hx
  exact getD_lt256 _ (hE _) _

theorem xorBytes_lt256 (a : List Nat) :
    ∀ b : List Nat, (∀ x ∈ a, x < 256) → (∀ x ∈ b, x < 256) →
      ∀ x ∈ xorBytes a b, x < 256 := by
  induction a with
  | nil =>
    intro b _ _ x hx
    simp [xorBytes] at hx
  | cons p ps ih =>
    intro b ha hb x hx
    cases b with
    | nil => simp [xorBytes] at hx
    | cons q qs =>
      simp only [xorBytes, List.zipWith_cons_cons, List.mem_cons] at hx
      rcases hx with rfl | hx
      · have hp : p < 2 ^ 8 := ha p (by simp)
        have hq : q < 2 ^ 8 := hb q (by simp)
        exact Nat.xor_lt_two_pow hp hq
      · exact ih qs (fun y hy => ha y (by simp [hy]))
          (fun y hy => hb y (by simp [hy])) x hx

theorem padTo16_lt256 (l : List Nat) (hl : ∀ x ∈ l, x < 256) :
    ∀ x ∈ padTo16 l, x < 256 := by
  intro x hx
  have hx2 := List.take_subset 16 _ hx
  rcases List.mem_append.1 hx2 with h | h
  · exact hl x h
  · rw [List.eq_of_mem_replicate h]
    omega

theorem gcmSeal_lt256 (E : BlockFn) (nonce pt : List Nat)
    (hE : ∀ block, ∀ x ∈ E block, x < 256) (hpt : ∀ x ∈ pt, x < 256) :
    ∀ x ∈ gcmSeal E nonce pt, x < 256 := by
  intro x hx
  unfold gcmSeal at hx
  rcases List.mem_append.1 hx with h | h
  · exact xorBytes_lt256 pt _ hpt (gcmKeystream_lt256 E nonce pt.length hE) x h
  · exact padTo16_lt256 _ (hE _) x h

theorem hexDigitByte_lt256 (d : Nat) (h : d < 16) : hexDigitByte d < 256 := by
  unfold hexDigitByte
  split_ifs <;> omega

theorem jsonEscapeByte_lt256 (b : Nat) (hb : b < 256) :
    ∀ x ∈ jsonEscapeByte b, x < 256 := by
  unfold jsonEscapeByte
  split_ifs with h1 h2 h3 h4 h5 h6
  · exact fun x hx => (by decide : ∀ y ∈ ([92, 34] : List Nat), y < 256) x hx
  · exact fun x hx => (by decide : ∀ y ∈ ([92, 92] : List Nat), y < 256) x hx
  · exact fun x hx => (by decide : ∀ y ∈ ([92, 110] : List Nat), y < 256) x hx
  · exact fun x hx => (by decide : ∀ y ∈ ([92, 114] : List Nat), y < 256) x hx
  · exact fun x hx => (by decide : ∀ y ∈ ([92, 116] : List Nat), y < 256) x hx
  · intro x hx
    simp only [List.mem_cons, List.not_mem_nil, or_false] at hx
    rcases hx with rfl | rfl | rfl | rfl | rfl | rfl
    · omega
    · omega
    · omega
    · omega
    · exact hexDigitByte_lt256 _ (by omega)
    · exact hexDigitByte_lt256 _ (by omega)
  · intro x hx
    simp only [List.mem_cons, List.not_mem_nil, or_false] at hx
    subst hx
    omega

theorem jsonEscape_lt256 (s : List Nat) (h : ∀ b ∈ s, b < 256) :
    ∀ x ∈ jsonEscape s, x < 256 := by
  intro x hx
  simp only [jsonEscape, List.mem_flatMap] at hx
  obtain ⟨b, hbm, hxb⟩ := hx
  exact jsonEscapeByte_lt256 b (h b hbm) x hxb

theorem marshalCredentials_lt256 (c : Credentials)
    (hs : ∀ b ∈ c.screenID, b < 256) (hp : ∀ b ∈ c.passkey, b < 256) :
    ∀ x ∈ marshalCredentials c, x < 256 := by
  intro x hx
  rw [marshalCredentials_shape] at hx
  rcases List.mem_append.1 hx with h | h
  · exact (by decide :
      ∀ y ∈ ([123, 34] ++ asciiBytes "screenId" ++ [34, 58, 34] : List Nat),
        y < 256) x h
  · rcases List.mem_append.1 h with h | h
    · exact jsonEscape_lt256 _ hs x h
    · rcases List.mem_cons.1 h with rfl | h
      · omega
      · rcases List.mem_append.1 h with h | h
        · exact (by decide :
            ∀ y ∈ ([44, 34] ++ asciiBytes "passkey" ++ [34, 58, 34] : List Nat),
              y < 256) x h
        · rcases List.mem_append.1 h with h | h
          · exact jsonEscape_lt256 _ hp x h
          · rcases List.mem_cons.1 h with rfl | h
            · omega
            · rcases List.mem_cons.1 h with rfl | h
              · omega
              · simp at h

theorem getOrCreateKey_keyFile (fs : CredFS) (genKey : List Nat) :
    ((getOrCreateKey fs genKey).2).keyFile = some (getOrCreateKey fs genKey).1
    := by
  cases hfk : fs.keyFile <;> simp [getOrCreateKey, hfk]

theorem credStorageLoad_some (aes : List Nat → BlockFn) (genKey : List Nat)
    (fs : CredFS) (b64 : String) (k : List Nat)
    (hc : fs.credsFile = some b64) (hk : fs.keyFile = some k) :
    credStorageLoad aes genKey fs =
      match DecryptFromBase64 aes b64 k with
      | .error e => .error ("failed to decrypt credentials: " ++ e)
      | .ok data => unmarshalCredentials data := by
  unfold credStorageLoad getOrCreateKey
  rw [hc, hk]

/-- C8: Save followed by Load returns the record saved, for any stored key
material (of any length, thanks to the SHA-256 derivation), any fresh key,
any 12-byte nonce and any block cipher producing bytes, whenever the record
holds non-empty byte-string credentials. -/
theorem c8_credentials_roundtrip (aes : List Nat → BlockFn)
    (nonce genKey : List Nat) (fs : CredFS) (creds : Credentials)
    (hE : ∀ key block, ∀ x ∈ aes key block, x < 256)
    (hnlen : nonce.length = gcmNonceSize)
    (hnb : ∀ b ∈ nonce, b < 256)
    (hsid : creds.screenID ≠ []) (hpk : creds.passkey ≠ [])
    (hsb : ∀ b ∈ creds.screenID, b < 256)
    (hpb : ∀ b ∈ creds.passkey, b < 256) :
    ∃ fs2, credStorageSave aes nonce genKey fs creds = .ok fs2 ∧
      credStorageLoad aes genKey fs2 = .ok creds := by
  have henc : Encrypt aes nonce (marshalCredentials creds)
      (getOrCreateKey fs genKey).1 =
      .ok (nonce ++ gcmSeal (aes (sha256 (getOrCreateKey fs genKey).1)) nonce
        (marshalCredentials creds)) := by
    unfold Encrypt
    rw [if_pos (sha256_length _)]
  have hencb : ∀ x ∈ nonce ++ gcmSeal
      (aes (sha256 (getOrCreateKey fs genKey).1)) nonce
      (marshalCredentials creds), x < 256 := by
    intro x hx
    rcases List.mem_append.1 hx with h | h
    · exact hnb x h
    · exact gcmSeal_lt256 _ _ _ (hE _)
        (marshalCredentials_lt256 creds hsb hpb) x h
  have hdec : DecryptFromBase64 aes (b64EncodeToString (nonce ++ gcmSeal
      (aes (sha256 (getOrCreateKey fs genKey).1)) nonce
      (marshalCredentials creds))) (getOrCreateKey fs genKey).1 =
      .ok (marshalCredentials creds) := by
    unfold DecryptFromBase64 b64EncodeToString
    dsimp only
    rw [b64_roundtrip _ hencb]
    exact Decrypt_Encrypt aes nonce _ _ hnlen _ henc
  refine ⟨{ (getOrCreateKey fs genKey).2 with
      credsFile := some (b64EncodeToString (nonce ++ gcmSeal
        (aes (sha256 (getOrCreateKey fs genKey).1)) nonce
        (marshalCredentials creds))) }, ?_, ?_⟩
  · simp only [credStorageSave, EncryptToBase64, henc]
  · rw [credStorageLoad_some aes genKey
      { (getOrCreateKey fs genKey).2 with
        credsFile := some (b64EncodeToString (nonce ++ gcmSeal
          (aes (sha256 (getOrCreateKey fs genKey).1)) nonce
          (marshalCredentials creds))) }
      (b64EncodeToString (nonce ++ gcmSeal
        (aes (sha256 (getOrCreateKey fs genKey).1)) nonce
        (marshalCredentials creds)))
      (getOrCreateKey fs genKey).1 rfl (getOrCreateKey_keyFile fs genKey)]
    rw [hdec]
    exact unmarshal_marshal creds hsb hpb

/-- C8 witness: a concrete one-byte credential pair with an empty key file,
the zero nonce and the trivial block cipher round-trips. -/
theorem c8_witness :
    ∃ fs2,
      credStorageSave (fun _ _ => []) (List.replicate 12 0) []
        { keyFile := none, credsFile := none } ⟨[115], [112]⟩ = .ok fs2 ∧
      credStorageLoad (fun _ _ => []) [] fs2 = .ok ⟨[115], [112]⟩ :=
  c8_credentials_roundtrip (fun _ _ => []) (List.replicate 12 0) []
    { keyFile := none, credsFile := none } ⟨[115], [112]⟩
    (fun _ _ x hx => absurd hx (List.not_mem_nil x))
    (by decide)
    (by decide)
    (by decide) (by decide)
    (by decide) (by decide)

/-- C10: Decrypt is total on arbitrary input: a base64 decoding failure
propagates as an error from DecryptFromBase64; every input whose decoded
byte length is below the 12-byte nonce size is rejected with the
encrypted-data-too-short error before any slicing; and on every input the
result is an ok or an error value, never anything else. -/
theorem c10_decrypt_total (aes : List Nat → BlockFn) (s : String)
    (key bytes : List Nat) :
    ((∃ e, b64DecodeGo s.data = .error e) →
      ∃ e2, DecryptFromBase64 aes s key = .error e2) ∧
    (bytes.length < gcmNonceSize →
      Decrypt aes bytes key = .error "encrypted data too short") ∧
    ((∃ v, Decrypt aes bytes key = .ok v) ∨
     (∃ e, Decrypt aes bytes key = .error e)) := by
  refine ⟨?_, ?_, ?_⟩
  · rintro ⟨e, he⟩
    refine ⟨"failed to decode base64: " ++ e, ?_⟩
    unfold DecryptFromBase64
    rw [he]
  · intro h
    unfold Decrypt
    rw [if_pos (sha256_length key), if_pos h]
  · rcases hd : Decrypt aes bytes key with e | v
    · exact Or.inr ⟨e, rfl⟩
    · exact Or.inl ⟨v, rfl⟩

/-- C10 witness: a three-byte blob is rejected as too short and an invalid
base64 text yields a decode error. -/
theorem c10_witness :
    (Decrypt (fun _ _ => ([] : List Nat)) [0, 1, 2] [7] =
      .error "encrypted data too short") ∧
    (∃ e2, DecryptFromBase64 (fun _ _ => ([] : List Nat)) "!!" [7] =
      .error e2) :=
  ⟨(c10_decrypt_total (fun _ _ => ([] : List Nat)) "!!" [7] [0, 1, 2]).2.1
      (by decide),
   (c10_decrypt_total (fun _ _ => ([] : List Nat)) "!!" [7] [0, 1, 2]).1
      ⟨"illegal base64 data", by decide⟩⟩

end MnemoCast
